import Mathlib

/-!
# ANMAK keyfob firmware: embedding of `src/main.cpp`

The firmware is a single super-loop over global variables.  The globals
become the fields of `State`; every hardware read (`millis()`,
`digitalRead`, the ADC data registers, `random`) is an explicit input;
every externally visible action (pin writes, busy-wait delays, interrupt
management, power-down) is appended to `State.trace` in program order.

Integer widths follow the AVR target: `unsigned int` is 16 bits,
`uint32_t` 32 bits and `uint64_t` 64 bits; arithmetic that can wrap is
reduced modulo the width.
-/

namespace ANMAK

/-! ## Build-time constants -/

def KEYFOB_BUTTON_1 : Nat := 0b0100
def KEYFOB_BUTTON_2 : Nat := 0b0010
def KEYFOB_BUTTON_3 : Nat := 0b0001
def KEYFOB_BUTTON_4 : Nat := 0b1000

/-- Build-time keyfob configuration: `KEYFOB_ID` is a `uint32_t`,
`KEYFOB_BUTTON` a `uint8_t`. -/
structure Keyfob where
  KEYFOB_ID : Nat
  KEYFOB_BUTTON : Nat

/-- The configuration as shipped in the source. -/
def keyfob_default : Keyfob := { KEYFOB_ID := 0x0000000, KEYFOB_BUTTON := KEYFOB_BUTTON_1 }

def VREF_ACTUAL_MV : Nat := 1101

def PIN_BTN : Nat := 2
def PIN_CHG : Nat := 3

/-- Board pin number of `A4` (standard ATmega328 variant). -/
def A4 : Nat := 18
/-- Board pin number of `A5` (standard ATmega328 variant). -/
def A5 : Nat := 19

def PIN_LED_RED : Nat := 0
def PIN_LED_YELLOW : Nat := A4
def PIN_LED_GREEN : Nat := A5
def PIN_TRANSMITTER : Nat := 1

def VCC_GREEN_TRH : Nat := 3750
def VCC_YELLOW_TRH : Nat := 3600
def VCC_RED_TRH : Nat := 3450

def CHARGE_BLINK_LOW_PERIOD : Nat := 100
def CHARGE_BLINK_CONNECTED_PERIOD : Nat := 500
def TIME_AFTER_WAKE_UP : Nat := 1000

def TIME_PE_US : Nat := 413
def TIME_PE_2_US : Nat := 413 * 2

def HIGH : Bool := true
def LOW : Bool := false

/-- Bit number of `ADEN` in `ADCSRA` (avr-libc). -/
def ADEN : Nat := 7
/-- Bit number of `ADSC` in `ADCSRA` (avr-libc). -/
def ADSC : Nat := 6
/-- Value `_BV(REFS0) | _BV(MUX3) | _BV(MUX2) | _BV(MUX1)` written to `ADMUX`
(the default branch of the conditional compilation in `vcc_read`). -/
def ADMUX_VREF : Nat := 2 ^ 6 ||| 2 ^ 3 ||| 2 ^ 2 ||| 2 ^ 1

/-! ## Observable actions and program state -/

/-- One externally visible action of the firmware. -/
inductive Event where
  /-- An output pin is driven to a level (`digitalWrite` or a direct port write). -/
  | pinWrite (pin : Nat) (level : Bool)
  /-- Busy wait: `delayMicroseconds(us)`. -/
  | delayMicroseconds (us : Nat)
  /-- Busy wait: `delay(ms)`. -/
  | delay (ms : Nat)
  | attachInterrupt (pin : Nat)
  | detachInterrupt (pin : Nat)
  /-- The call `LowPower.powerDown(SLEEP_FOREVER, ADC_OFF, BOD_OFF)`. -/
  | powerDown
  /-- The call `analogReference(DEFAULT)`. -/
  | analogReferenceDefault
  /-- The call `analogRead(pin)` whose result is discarded. -/
  | analogRead (pin : Nat)
  deriving DecidableEq, Repr

/-- The global variables of `main.cpp`, the two ADC registers the program
writes, the output latch of every pin, and the trace of actions so far. -/
structure State where
  vcc : Nat
  wake_up_timer : Nat
  show_charge_timer : Nat
  transmit_timer : Nat
  show_charge_period : Nat
  button_pressed : Bool
  charger_connected : Bool
  show_charge_stage : Bool
  tx_allowed : Bool
  payload : Nat
  data_bit : Nat
  ADMUX : Nat
  ADCSRA : Nat
  pins : Nat → Bool
  trace : List Event

/-- Power-up state: globals are zero-initialised, nothing has happened yet. -/
def power_up : State :=
  { vcc := 0, wake_up_timer := 0, show_charge_timer := 0, transmit_timer := 0,
    show_charge_period := 0, button_pressed := false, charger_connected := false,
    show_charge_stage := false, tx_allowed := false, payload := 0, data_bit := 0,
    ADMUX := 0, ADCSRA := 0, pins := fun _ => false, trace := [] }

/-- Append one action to the trace. -/
def emit (e : Event) (s : State) : State :=
  { s with trace := s.trace ++ [e] }

/-- Drive an output pin: the latch of that pin changes, no other latch does. -/
def digitalWrite (pin : Nat) (level : Bool) (s : State) : State :=
  { s with pins := Function.update s.pins pin level,
           trace := s.trace ++ [Event.pinWrite pin level] }

/-- Busy wait of `us` microseconds. -/
def delayMicroseconds (us : Nat) (s : State) : State :=
  emit (Event.delayMicroseconds us) s

/-- Elapsed time `now - timer` as computed in `uint64_t`. -/
def elapsed (now timer : Nat) : Nat :=
  (now % 2 ^ 64 + (2 ^ 64 - timer % 2 ^ 64)) % 2 ^ 64

/-- The Arduino core operation `bitRead(value, bit)`: `((value) >> (bit)) & 0x01`. -/
def bitRead (value bit : Nat) : Nat :=
  (value >>> bit) &&& 0x01

/-! ## Transmitter -/

/-- Sets output to HIGH: ORs the transmitter bit into its port register. -/
def set_tx_high (s : State) : State :=
  digitalWrite PIN_TRANSMITTER HIGH s

/-- Sets output to LOW: clears the transmitter bit in its port register. -/
def set_tx_low (s : State) : State :=
  digitalWrite PIN_TRANSMITTER LOW s

/-- Sends one bit of data (the global `data_bit`). -/
def send_bit (s : State) : State :=
  if s.data_bit = 0 then
    delayMicroseconds TIME_PE_US
      (set_tx_low (delayMicroseconds TIME_PE_2_US (set_tx_high s)))
  else
    delayMicroseconds TIME_PE_2_US
      (set_tx_low (delayMicroseconds TIME_PE_US (set_tx_high s)))

/-- Body of the `for` loop of `send_preamble`, run `n` times. -/
def send_preamble_loop : State → Nat → State
  | s, 0 => s
  | s, n + 1 =>
    send_preamble_loop
      (set_tx_low (delayMicroseconds TIME_PE_US
        (set_tx_high (delayMicroseconds TIME_PE_US s)))) n

/-- Sends data preamble. -/
def send_preamble (s : State) : State :=
  send_preamble_loop s 12

/-- The loop `for (i = 64; i > 0; i--) { data_bit = bitRead(payload, i - 1); send_bit(); }`
with `i` the current value of the loop counter. -/
def send_payload_loop : State → Nat → State
  | s, 0 => s
  | s, i + 1 =>
    send_payload_loop (send_bit { s with data_bit := bitRead s.payload i }) i

/-- Body of the packet loop of `send_data`. -/
def send_packet (s : State) : State :=
  let s := send_preamble s
  let s := delayMicroseconds ((TIME_PE_US * 10) % 2 ^ 16) s
  let s := send_payload_loop s 64
  let s := { s with data_bit := 1 }
  let s := send_bit s
  let s := send_bit s
  delayMicroseconds ((TIME_PE_US * 39) % 2 ^ 16) s

/-- The loop `for (packet_n = 0; packet_n < 4; packet_n++)`, with `n` iterations left. -/
def send_packet_loop : State → Nat → State
  | s, 0 => s
  | s, n + 1 => send_packet_loop (send_packet s) n

/-- The payload word constructed at the top of `send_data`; `rnd` is the value
returned by `random(0xFF)`.  All operations are `uint64_t` operations. -/
def build_payload (k : Keyfob) (rnd : Nat) : Nat :=
  let payload := 0x2020000000000000
  let payload := payload ||| ((0x0001000000000001 * (k.KEYFOB_BUTTON % 2 ^ 8)) % 2 ^ 64)
  let payload := payload ||| (((((rnd % 2 ^ 64) * 0x101) % 2 ^ 64) <<< 32) % 2 ^ 64)
  payload ||| (((k.KEYFOB_ID % 2 ^ 32) <<< 4) % 2 ^ 64)

/-- Sends preamble and payload. -/
def send_data (k : Keyfob) (rnd : Nat) (s : State) : State :=
  send_packet_loop { s with payload := build_payload k rnd } 4

/-- Sends RF packet. -/
def transmit_data (k : Keyfob) (rnd : Nat) (s : State) : State :=
  if s.tx_allowed then
    let s := send_data k rnd s
    let s := digitalWrite PIN_TRANSMITTER LOW s
    { s with tx_allowed := false }
  else s

/-! ## Voltage measurement and battery indicator -/

/-- Measures VCC; `adch` and `adcl` are the ADC data registers read after the
conversion.  Division by a zero reading has no defined result. -/
def vcc_read (adch adcl : Nat) (s : State) : Option State :=
  let s := { s with ADMUX := ADMUX_VREF }
  let s := emit (Event.delay 10) s
  let s := { s with ADCSRA := s.ADCSRA ||| 2 ^ ADSC }
  -- the hardware clears ADSC when the conversion is complete
  let s := { s with ADCSRA := s.ADCSRA - 2 ^ ADSC }
  let s := { s with vcc := ((adch % 2 ^ 8) <<< 8) ||| (adcl % 2 ^ 8) }
  if s.vcc = 0 then none
  else
    let s := { s with vcc := ((VREF_ACTUAL_MV * 1024) % 2 ^ 32) / s.vcc }
    let s := emit Event.analogReferenceDefault s
    some (emit (Event.analogRead A5) s)

/-- The charging branch of `show_charge`. -/
def show_charge_charging (s : State) : State :=
  let s := { s with show_charge_period := CHARGE_BLINK_CONNECTED_PERIOD }
  let s :=
    if s.show_charge_stage then
      let s := digitalWrite PIN_LED_RED HIGH s
      let s := digitalWrite PIN_LED_YELLOW LOW s
      let s := digitalWrite PIN_LED_GREEN LOW s
      let s := if s.vcc > VCC_RED_TRH then digitalWrite PIN_LED_YELLOW HIGH s else s
      if s.vcc > VCC_YELLOW_TRH then digitalWrite PIN_LED_GREEN HIGH s else s
    else
      if s.vcc > VCC_YELLOW_TRH then digitalWrite PIN_LED_GREEN LOW s
      else if s.vcc > VCC_RED_TRH then digitalWrite PIN_LED_YELLOW LOW s
      else digitalWrite PIN_LED_RED LOW s
  { s with show_charge_stage := !s.show_charge_stage }

/-- The not-charging branch of `show_charge`. -/
def show_charge_battery (s : State) : State :=
  if s.vcc ≥ VCC_RED_TRH then
    let s := digitalWrite PIN_LED_RED HIGH s
    let s := digitalWrite PIN_LED_YELLOW LOW s
    let s := digitalWrite PIN_LED_GREEN LOW s
    let s := if s.vcc ≥ VCC_YELLOW_TRH then digitalWrite PIN_LED_YELLOW HIGH s else s
    if s.vcc ≥ VCC_GREEN_TRH then digitalWrite PIN_LED_GREEN HIGH s else s
  else
    let s := { s with show_charge_period := CHARGE_BLINK_LOW_PERIOD }
    let s := digitalWrite PIN_LED_RED s.show_charge_stage s
    { s with show_charge_stage := !s.show_charge_stage }

/-- Shows current battery voltage with 3 LEDs.  `now_check` and `now_reset`
are the two `millis()` readings; `adch`, `adcl` the ADC data registers. -/
def show_charge (now_check adch adcl now_reset : Nat) (s : State) : Option State :=
  if elapsed now_check s.show_charge_timer ≥ s.show_charge_period % 2 ^ 64 then
    match vcc_read adch adcl s with
    | none => none
    | some s =>
      let s := if s.charger_connected then show_charge_charging s else show_charge_battery s
      some { s with show_charge_timer := now_reset }
  else some s

/-! ## Activity / sleep controller -/

/-- Wake up callback; `now_wake` and `now_tx` are its two `millis()` readings. -/
def wake_up (now_wake now_tx : Nat) (s : State) : State :=
  let s := { s with ADCSRA := s.ADCSRA ||| (1 <<< ADEN) }
  let s := { s with wake_up_timer := now_wake }
  let s := { s with transmit_timer := now_tx }
  { s with tx_allowed := true }

/-- Run the wake-up callback once for each pair of clock readings. -/
def run_wake_ups : List (Nat × Nat) → State → State
  | [], s => s
  | w :: ws, s => run_wake_ups ws (wake_up w.1 w.2 s)

/-- Puts arduino into sleep.  Power-down returns only after an attached interrupt
has fired, so the callback runs at least once (`wake`) and possibly again
(`rewakes`, the level-triggered interrupt) before both interrupts are detached. -/
def sleep_begin (wake : Nat × Nat) (rewakes : List (Nat × Nat)) (s : State) : State :=
  let s := digitalWrite PIN_LED_RED LOW s
  let s := digitalWrite PIN_LED_YELLOW LOW s
  let s := digitalWrite PIN_LED_GREEN LOW s
  let s := digitalWrite PIN_TRANSMITTER LOW s
  let s := emit (Event.attachInterrupt PIN_BTN) s
  let s := emit (Event.attachInterrupt PIN_CHG) s
  let s := emit Event.powerDown s
  let s := run_wake_ups (wake :: rewakes) s
  let s := emit (Event.detachInterrupt PIN_BTN) s
  emit (Event.detachInterrupt PIN_CHG) s

/-- Checks if charger is connected; `level` is `digitalRead(PIN_CHG)`. -/
def check_charger (level : Bool) (s : State) : State :=
  { s with charger_connected := !level }

/-- Checks if button is pressed; `level` is `digitalRead(PIN_BTN)`. -/
def check_button (level : Bool) (s : State) : State :=
  { s with button_pressed := !level }

/-- Everything one pass of `loop` reads from the outside, in program order. -/
structure TickEnv where
  /-- `digitalRead(PIN_CHG)` -/
  chg_pin : Bool
  /-- `digitalRead(PIN_BTN)` -/
  btn_pin : Bool
  /-- `millis()` in the transmit-cooldown test -/
  now_tx_check : Nat
  /-- `millis()` stored into `transmit_timer` -/
  now_tx_reset : Nat
  /-- `millis()` in the refresh test of `show_charge` -/
  now_show_check : Nat
  /-- `ADCH` after the conversion -/
  adch : Nat
  /-- `ADCL` after the conversion -/
  adcl : Nat
  /-- `millis()` stored into `show_charge_timer` -/
  now_show_reset : Nat
  /-- `random(0xFF)` -/
  rnd : Nat
  /-- `millis()` stored into `wake_up_timer` -/
  now_wake_reset : Nat
  /-- `millis()` in the sleep test -/
  now_sleep_check : Nat
  /-- clock readings of the wake-up callback that ends the power-down -/
  wake : Nat × Nat
  /-- clock readings of further runs of the callback before it is detached -/
  rewakes : List (Nat × Nat)

/-- The charger step of `loop`: allow transmitting every `TIME_AFTER_WAKE_UP` ms
if the charger is connected. -/
def loop_grant (e : TickEnv) (s : State) : State :=
  if s.charger_connected && decide (elapsed e.now_tx_check s.transmit_timer ≥ TIME_AFTER_WAKE_UP) then
    { s with tx_allowed := true, transmit_timer := e.now_tx_reset }
  else s

/-- The part of `loop` up to and including the charger step. -/
def loop_head (e : TickEnv) (s : State) : State :=
  loop_grant e (check_button e.btn_pin (check_charger e.chg_pin s))

/-- The part of `loop` after `show_charge`. -/
def loop_tail (k : Keyfob) (e : TickEnv) (s : State) : State :=
  let s := if s.button_pressed then transmit_data k e.rnd s else s
  let s := if s.charger_connected || s.button_pressed then
      { s with wake_up_timer := e.now_wake_reset } else s
  if elapsed e.now_sleep_check s.wake_up_timer ≥ TIME_AFTER_WAKE_UP then
    sleep_begin e.wake e.rewakes s
  else s

/-- One pass of `loop`. -/
def loop (k : Keyfob) (e : TickEnv) (s : State) : Option State :=
  match show_charge e.now_show_check e.adch e.adcl e.now_show_reset (loop_head e s) with
  | none => none
  | some s => some (loop_tail k e s)

/-! ## Vocabulary for stating properties of traces -/

/-- Total busy-wait time, in microseconds, spent in a list of actions. -/
def duration : List Event → Nat
  | [] => 0
  | Event.delayMicroseconds us :: es => us + duration es
  | _ :: es => duration es

/-- The level last written to `pin` in a list of actions, if any. -/
def last_write (pin : Nat) : List Event → Option Bool
  | [] => none
  | Event.pinWrite p level :: es =>
    match last_write pin es with
    | some l => some l
    | none => if p = pin then some level else none
  | _ :: es => last_write pin es

/-- The waveform a list of actions puts on `pin`, as runs `(level, microseconds)`:
the run in progress has level `lvl` and has lasted `t` so far; a write to
`pin` closes it and opens a new run, a wait lengthens it. -/
def waveform (pin : Nat) : Bool → Nat → List Event → List (Bool × Nat)
  | lvl, t, [] => [(lvl, t)]
  | lvl, t, Event.pinWrite p l :: es =>
    if p = pin then (lvl, t) :: waveform pin l 0 es else waveform pin lvl t es
  | lvl, t, Event.delayMicroseconds us :: es => waveform pin lvl (t + us) es
  | lvl, t, _ :: es => waveform pin lvl t es

/-- The actions of one bit in the pulse-width code: `0` is HIGH for 826 us then
LOW for 413 us, anything else is HIGH for 413 us then LOW for 826 us. -/
def spec_bit (b : Nat) : List Event :=
  if b = 0 then
    [Event.pinWrite PIN_TRANSMITTER HIGH, Event.delayMicroseconds 826,
     Event.pinWrite PIN_TRANSMITTER LOW, Event.delayMicroseconds 413]
  else
    [Event.pinWrite PIN_TRANSMITTER HIGH, Event.delayMicroseconds 413,
     Event.pinWrite PIN_TRANSMITTER LOW, Event.delayMicroseconds 826]

/-- One cycle of the preamble in the order the code performs it. -/
def preamble_cycle : List Event :=
  [Event.delayMicroseconds 413, Event.pinWrite PIN_TRANSMITTER HIGH,
   Event.delayMicroseconds 413, Event.pinWrite PIN_TRANSMITTER LOW]

/-- The actions of the preamble: 12 cycles. -/
def spec_preamble : List Event :=
  (List.replicate 12 preamble_cycle).flatten

/-- The low `n` bits of `p`, bit `n - 1` first and bit `0` last, in the pulse-width code. -/
def spec_payload_bits (n p : Nat) : List Event :=
  ((List.range n).reverse.map (fun i => spec_bit (p / 2 ^ i % 2))).flatten

/-- One repetition: preamble, 10T gap, 64 payload bits, two `1` bits, 39T gap. -/
def spec_packet (p : Nat) : List Event :=
  spec_preamble ++ [Event.delayMicroseconds 4130] ++ spec_payload_bits 64 p ++
    spec_bit 1 ++ spec_bit 1 ++ [Event.delayMicroseconds 16107]

/-- Receiver side: split a list of actions into `(HIGH duration, LOW duration)` pairs. -/
def pulses : List Event → Option (List (Nat × Nat))
  | [] => some []
  | Event.pinWrite p true :: Event.delayMicroseconds h ::
      Event.pinWrite q false :: Event.delayMicroseconds l :: es =>
    if p = PIN_TRANSMITTER ∧ q = PIN_TRANSMITTER then
      match pulses es with
      | some ps => some ((h, l) :: ps)
      | none => none
    else none
  | _ => none

/-- Receiver side: `(2T, T)` is a `0`, `(T, 2T)` is a `1`. -/
def decode_pulse (hl : Nat × Nat) : Option Nat :=
  if hl = (826, 413) then some 0
  else if hl = (413, 826) then some 1
  else none

/-- Decode every pair of a list. -/
def decode_pulses : List (Nat × Nat) → Option (List Nat)
  | [] => some []
  | hl :: rest =>
    match decode_pulse hl, decode_pulses rest with
    | some b, some bs => some (b :: bs)
    | _, _ => none

/-- Assemble bits into a number, most significant first. -/
def assemble (bits : List Nat) : Nat :=
  bits.foldl (fun acc b => 2 * acc + b) 0

/-- The inverse bit-timing decode of a list of actions. -/
def decode (es : List Event) : Option Nat :=
  match pulses es with
  | none => none
  | some ps =>
    match decode_pulses ps with
    | none => none
    | some bits => some (assemble bits)

/-! ## Ticks and runs -/

/-- The reading `(ADCH << 8) | ADCL` that `vcc_read` divides by. -/
def adc_raw (adch adcl : Nat) : Nat :=
  ((adch % 2 ^ 8) <<< 8) ||| (adcl % 2 ^ 8)

/-- The part of `loop_tail` before the sleep test: transmission and idle-timer reset. -/
def loop_awake (k : Keyfob) (e : TickEnv) (s : State) : State :=
  let s := if s.button_pressed then transmit_data k e.rnd s else s
  if s.charger_connected || s.button_pressed then
    { s with wake_up_timer := e.now_wake_reset } else s

/-- Whether the sleep test of `loop` fires, `s` being the state after `show_charge`. -/
def loop_sleeps (k : Keyfob) (e : TickEnv) (s : State) : Bool :=
  decide (elapsed e.now_sleep_check (loop_awake k e s).wake_up_timer ≥ TIME_AFTER_WAKE_UP)

/-- Whether the charger step of `loop` grants a permit in a tick started in `s`. -/
def loop_grants (e : TickEnv) (s : State) : Bool :=
  !e.chg_pin && decide (elapsed e.now_tx_check s.transmit_timer ≥ TIME_AFTER_WAKE_UP)

/-- Consecutive passes of `loop`, one for each element of the list. -/
def run (k : Keyfob) : List TickEnv → State → Option State
  | [], s => some s
  | e :: es, s =>
    match loop k e s with
    | none => none
    | some s1 => run k es s1

/-- The actions `show_charge` can emit: the ADC measurement and LED writes. -/
def is_display : Event → Bool
  | Event.pinWrite p _ => p = PIN_LED_RED || p = PIN_LED_YELLOW || p = PIN_LED_GREEN
  | Event.delay _ => true
  | Event.analogReferenceDefault => true
  | Event.analogRead _ => true
  | _ => false

/-- An idle tick: no charger, button released, every clock reading 1000 ms, the
ADC reads 320 (about 3523 mV). -/
def tick_idle_1000 : TickEnv :=
  { chg_pin := HIGH, btn_pin := HIGH, now_tx_check := 1000, now_tx_reset := 1000,
    now_show_check := 1000, adch := 1, adcl := 0x40, now_show_reset := 1000, rnd := 0x5A,
    now_wake_reset := 1000, now_sleep_check := 1000, wake := (2000, 2000), rewakes := [] }

/-- A tick on the charger at clock 0 ms, button released, ADC reading 320 (3523 mV). -/
def tick_charge_0 : TickEnv :=
  { chg_pin := LOW, btn_pin := HIGH, now_tx_check := 0, now_tx_reset := 0,
    now_show_check := 0, adch := 1, adcl := 0x40, now_show_reset := 0, rnd := 0x5A,
    now_wake_reset := 0, now_sleep_check := 0, wake := (0, 0), rewakes := [] }

/-- A tick on the charger at clock 500 ms, button released, ADC reading 320 (3523 mV). -/
def tick_charge_500 : TickEnv :=
  { chg_pin := LOW, btn_pin := HIGH, now_tx_check := 500, now_tx_reset := 500,
    now_show_check := 500, adch := 1, adcl := 0x40, now_show_reset := 500, rnd := 0x5A,
    now_wake_reset := 500, now_sleep_check := 500, wake := (500, 500), rewakes := [] }

/-- A tick at clock 1000 ms with the charger removed, button released, ADC
reading 340 (3315 mV, a low battery). -/
def tick_low_1000 : TickEnv :=
  { chg_pin := HIGH, btn_pin := HIGH, now_tx_check := 1000, now_tx_reset := 1000,
    now_show_check := 1000, adch := 1, adcl := 0x54, now_show_reset := 1000, rnd := 0x5A,
    now_wake_reset := 1000, now_sleep_check := 1000, wake := (1000, 1000), rewakes := [] }

/-- A tick at clock 0 ms whose ADC reading is zero. -/
def tick_adc_zero : TickEnv :=
  { chg_pin := HIGH, btn_pin := HIGH, now_tx_check := 0, now_tx_reset := 0,
    now_show_check := 0, adch := 0, adcl := 0, now_show_reset := 0, rnd := 0x5A,
    now_wake_reset := 0, now_sleep_check := 0, wake := (0, 0), rewakes := [] }

/-! ## Named inputs used in witnesses and counterexamples -/

/-- A tick on the charger with the button released: every clock reading is
1000 ms, the ADC reads 320 (about 3523 mV). -/
def tick_charger_released : TickEnv :=
  { chg_pin := LOW, btn_pin := HIGH, now_tx_check := 1000, now_tx_reset := 1000,
    now_show_check := 1000, adch := 1, adcl := 0x40, now_show_reset := 1000, rnd := 0x5A,
    now_wake_reset := 1000, now_sleep_check := 1000, wake := (2000, 2000), rewakes := [] }

/-- The same tick with the button pressed. -/
def tick_charger_pressed : TickEnv :=
  { tick_charger_released with btn_pin := LOW }

/-! ## The four fields OR-ed into the payload -/

/-- The frame marker: the initial value of `payload`. -/
def payload_frame : Nat := 0x2020000000000000

/-- The operand `0x0001000000000001 * (uint64_t)KEYFOB_BUTTON`. -/
def payload_button (k : Keyfob) : Nat :=
  (0x0001000000000001 * (k.KEYFOB_BUTTON % 2 ^ 8)) % 2 ^ 64

/-- The operand `(uint64_t)random(0xFF) * (uint64_t)0x101 << (uint64_t)32`. -/
def payload_random (rnd : Nat) : Nat :=
  ((((rnd % 2 ^ 64) * 0x101) % 2 ^ 64) <<< 32) % 2 ^ 64

/-- The operand `(uint64_t)KEYFOB_ID << (uint64_t)4`. -/
def payload_id (k : Keyfob) : Nat :=
  ((k.KEYFOB_ID % 2 ^ 32) <<< 4) % 2 ^ 64

/-- A tick with the button held and no charger; every clock reading is `t`, the
ADC reads 320 (about 3523 mV). -/
def tick_pressed_at (t : Nat) : TickEnv :=
  { chg_pin := HIGH, btn_pin := LOW, now_tx_check := t, now_tx_reset := t,
    now_show_check := t, adch := 1, adcl := 0x40, now_show_reset := t, rnd := 0x5A,
    now_wake_reset := t, now_sleep_check := t, wake := (t, t), rewakes := [] }

/-- The actions of `sleep_begin`, in program order. -/
def sleep_events : List Event :=
  [Event.pinWrite PIN_LED_RED LOW, Event.pinWrite PIN_LED_YELLOW LOW,
   Event.pinWrite PIN_LED_GREEN LOW, Event.pinWrite PIN_TRANSMITTER LOW,
   Event.attachInterrupt PIN_BTN, Event.attachInterrupt PIN_CHG, Event.powerDown,
   Event.detachInterrupt PIN_BTN, Event.detachInterrupt PIN_CHG]

/-- An idle tick (no charger, button released); every clock reading is `t`, the
ADC reads 320 (about 3523 mV). -/
def tick_idle_at (t : Nat) : TickEnv :=
  { chg_pin := HIGH, btn_pin := HIGH, now_tx_check := t, now_tx_reset := t,
    now_show_check := t, adch := 1, adcl := 0x40, now_show_reset := t, rnd := 0x5A,
    now_wake_reset := t, now_sleep_check := t, wake := (t, t), rewakes := [] }

/-! ## Permit grants and wake-ups along a run -/

/-- A timed occurrence along a run: the charger step of `loop` granted a permit
(`check`: the clock reading of its test, `reset`: the reading it stored in
`transmit_timer`), or `wake_up` ran (its two clock readings). -/
inductive Mark where
  | grant (check reset : Nat)
  | wake (now_wake now_tx : Nat)
  deriving DecidableEq, Repr

/-- One `wake` mark for each run of the wake-up callback. -/
def wake_marks : List (Nat × Nat) → List Mark
  | [] => []
  | w :: ws => Mark.wake w.1 w.2 :: wake_marks ws

/-- The grants and wake-ups of a run of ticks, in program order.  The callback
runs only in a tick whose sleep test fires. -/
def marks (k : Keyfob) : List TickEnv → State → List Mark
  | [], _ => []
  | e :: es, s =>
    (if loop_grants e s then [Mark.grant e.now_tx_check e.now_tx_reset] else []) ++
      match show_charge e.now_show_check e.adch e.adcl e.now_show_reset (loop_head e s) with
      | none => []
      | some s1 =>
        (if loop_sleeps k e s1 then wake_marks (e.wake :: e.rewakes) else []) ++
          marks k es (loop_tail k e s1)

/-- The clock readings of the wake-up callbacks, in program order. -/
def wake_readings : List (Nat × Nat) → List Nat
  | [] => []
  | w :: ws => w.1 :: w.2 :: wake_readings ws

/-- The clock readings of one tick, in program order. -/
def tick_readings (e : TickEnv) : List Nat :=
  e.now_tx_check :: e.now_tx_reset :: e.now_show_check :: e.now_show_reset ::
    e.now_wake_reset :: e.now_sleep_check :: wake_readings (e.wake :: e.rewakes)

/-- The clock readings of a run of ticks, in program order. -/
def clock_readings : List TickEnv → List Nat
  | [] => []
  | e :: es => tick_readings e ++ clock_readings es

/-- Two marks, the first earlier in the run, are spaced when a grant comes at
least 1000 ms after the timer reset of an earlier grant and after an earlier
wake-up. -/
def spaced : Mark → Mark → Bool
  | Mark.grant _ reset, Mark.grant check _ => decide (reset + 1000 ≤ check)
  | Mark.wake _ now_tx, Mark.grant check _ => decide (now_tx + 1000 ≤ check)
  | _, _ => true

/-- A tick on the charger with the button released; every clock reading is `t`,
the ADC reads 320 (about 3523 mV). -/
def tick_charger_at (t : Nat) : TickEnv :=
  { chg_pin := LOW, btn_pin := HIGH, now_tx_check := t, now_tx_reset := t,
    now_show_check := t, adch := 1, adcl := 0x40, now_show_reset := t, rnd := 0x5A,
    now_wake_reset := t, now_sleep_check := t, wake := (t, t), rewakes := [] }

/-! ## Basic facts about the primitives -/

theorem send_bit_trace_zero (s : State) (h : s.data_bit = 0) :
    (send_bit s).trace = s.trace ++
      [Event.pinWrite PIN_TRANSMITTER HIGH, Event.delayMicroseconds 826,
       Event.pinWrite PIN_TRANSMITTER LOW, Event.delayMicroseconds 413] := by
  simp [send_bit, h, set_tx_high, set_tx_low, digitalWrite, delayMicroseconds, emit,
    TIME_PE_US, TIME_PE_2_US]

theorem send_bit_trace_one (s : State) (h : s.data_bit ≠ 0) :
    (send_bit s).trace = s.trace ++
      [Event.pinWrite PIN_TRANSMITTER HIGH, Event.delayMicroseconds 413,
       Event.pinWrite PIN_TRANSMITTER LOW, Event.delayMicroseconds 826] := by
  simp [send_bit, h, set_tx_high, set_tx_low, digitalWrite, delayMicroseconds, emit,
    TIME_PE_US, TIME_PE_2_US]

theorem send_bit_pins (s : State) (pin : Nat) (h : pin ≠ PIN_TRANSMITTER) :
    (send_bit s).pins pin = s.pins pin := by
  unfold send_bit
  split <;>
    simp [set_tx_high, set_tx_low, digitalWrite, delayMicroseconds, emit, Function.update, h]

theorem send_bit_eq (s : State) :
    send_bit s = { s with pins := Function.update s.pins PIN_TRANSMITTER LOW,
                          trace := s.trace ++ spec_bit s.data_bit } := by
  unfold send_bit spec_bit
  split <;>
    simp [set_tx_high, set_tx_low, digitalWrite, delayMicroseconds, emit,
      TIME_PE_US, TIME_PE_2_US]

theorem bitRead_eq (p i : Nat) : bitRead p i = p / 2 ^ i % 2 := by
  simp [bitRead, Nat.shiftRight_eq_div_pow]

theorem spec_payload_bits_succ (n p : Nat) :
    spec_payload_bits (n + 1) p = spec_bit (p / 2 ^ n % 2) ++ spec_payload_bits n p := by
  simp [spec_payload_bits, List.range_succ]

theorem send_payload_loop_eq (i : Nat) (s : State) :
    send_payload_loop s (i + 1) =
      { s with data_bit := bitRead s.payload 0,
               pins := Function.update s.pins PIN_TRANSMITTER LOW,
               trace := s.trace ++ spec_payload_bits (i + 1) s.payload } := by
  induction i generalizing s with
  | zero =>
    have h0 : spec_payload_bits 0 s.payload = [] := rfl
    simp [send_payload_loop, send_bit_eq, spec_payload_bits_succ, h0, bitRead_eq]
  | succ n ih =>
    rw [send_payload_loop, ih, send_bit_eq]
    simp [spec_payload_bits_succ (n + 1), bitRead_eq]

theorem send_preamble_loop_eq (n : Nat) (s : State) :
    send_preamble_loop s (n + 1) =
      { s with pins := Function.update s.pins PIN_TRANSMITTER LOW,
               trace := s.trace ++ (List.replicate (n + 1) preamble_cycle).flatten } := by
  induction n generalizing s with
  | zero =>
    simp [send_preamble_loop, set_tx_high, set_tx_low, digitalWrite, delayMicroseconds, emit,
      TIME_PE_US, preamble_cycle]
  | succ n ih =>
    rw [send_preamble_loop, ih]
    simp [set_tx_high, set_tx_low, digitalWrite, delayMicroseconds, emit,
      TIME_PE_US, preamble_cycle, List.replicate_succ]

theorem send_preamble_eq (s : State) :
    send_preamble s =
      { s with pins := Function.update s.pins PIN_TRANSMITTER LOW,
               trace := s.trace ++ spec_preamble } := by
  rw [send_preamble, send_preamble_loop_eq, spec_preamble]

theorem send_packet_eq (s : State) :
    send_packet s =
      { s with data_bit := 1,
               pins := Function.update s.pins PIN_TRANSMITTER LOW,
               trace := s.trace ++ spec_packet s.payload } := by
  simp [send_packet, send_preamble_eq, send_payload_loop_eq, send_bit_eq,
    delayMicroseconds, emit, spec_packet, TIME_PE_US]

theorem send_packet_loop_eq (n : Nat) (s : State) :
    send_packet_loop s (n + 1) =
      { s with data_bit := 1,
               pins := Function.update s.pins PIN_TRANSMITTER LOW,
               trace := s.trace ++ (List.replicate (n + 1) (spec_packet s.payload)).flatten } := by
  induction n generalizing s with
  | zero => simp [send_packet_loop, send_packet_eq]
  | succ n ih =>
    rw [send_packet_loop, ih, send_packet_eq]
    simp [List.replicate_succ (n := n + 1)]

theorem send_data_eq (k : Keyfob) (rnd : Nat) (s : State) :
    send_data k rnd s =
      { s with payload := build_payload k rnd,
               data_bit := 1,
               pins := Function.update s.pins PIN_TRANSMITTER LOW,
               trace := s.trace ++ (List.replicate 4 (spec_packet (build_payload k rnd))).flatten } := by
  rw [send_data, send_packet_loop_eq]

theorem spec_bit_length (b : Nat) : (spec_bit b).length = 4 := by
  unfold spec_bit; split <;> rfl

theorem spec_payload_bits_length (n p : Nat) : (spec_payload_bits n p).length = 4 * n := by
  induction n with
  | zero => rfl
  | succ n ih => rw [spec_payload_bits_succ, List.length_append, spec_bit_length, ih]; omega

theorem spec_preamble_length : spec_preamble.length = 48 := by decide

theorem pulses_spec_bit (b : Nat) (es : List Event) (ps : List (Nat × Nat))
    (h : pulses es = some ps) :
    pulses (spec_bit b ++ es) =
      some ((if b = 0 then (826, 413) else (413, 826)) :: ps) := by
  unfold spec_bit
  split <;> simp [pulses, h, HIGH, LOW]

theorem decode_spec_payload_bits (n p : Nat) :
    ∃ ps bits, pulses (spec_payload_bits n p) = some ps ∧ decode_pulses ps = some bits ∧
      ∀ acc, bits.foldl (fun a b => 2 * a + b) acc = acc * 2 ^ n + p % 2 ^ n := by
  induction n with
  | zero =>
    refine ⟨[], [], rfl, rfl, ?_⟩
    intro acc
    simp [Nat.mod_one]
  | succ n ih =>
    obtain ⟨ps, bits, h1, h2, h3⟩ := ih
    have hb : p / 2 ^ n % 2 < 2 := Nat.mod_lt _ (by decide)
    refine ⟨(if p / 2 ^ n % 2 = 0 then (826, 413) else (413, 826)) :: ps,
      (p / 2 ^ n % 2) :: bits, ?_, ?_, ?_⟩
    · rw [spec_payload_bits_succ]
      exact pulses_spec_bit _ _ _ h1
    · by_cases h0 : p / 2 ^ n % 2 = 0
      · simp [decode_pulses, decode_pulse, h0, h2]
      · have h1 : p / 2 ^ n % 2 = 1 := by omega
        simp [decode_pulses, decode_pulse, h1, h2]
    · intro acc
      rw [List.foldl_cons, h3, Nat.mod_pow_succ, Nat.pow_succ]
      ring

theorem decode_payload_bits (n p : Nat) : decode (spec_payload_bits n p) = some (p % 2 ^ n) := by
  obtain ⟨ps, bits, h1, h2, h3⟩ := decode_spec_payload_bits n p
  simp [decode, h1, h2, assemble, h3]

theorem send_packet_payload_slice (s : State) :
    ((send_packet s).trace.drop (s.trace.length + 49)).take 256 =
      spec_payload_bits 64 s.payload := by
  rw [send_packet_eq]
  simp only [spec_packet, List.append_assoc]
  rw [List.drop_append, ← List.append_assoc,
    List.drop_left' (by rw [List.length_append, spec_preamble_length]; rfl)]
  exact List.take_left' (by rw [spec_payload_bits_length])

theorem or_mod_two_pow (a b n : Nat) : (a ||| b) % 2 ^ n = a % 2 ^ n ||| b % 2 ^ n := by
  apply Nat.eq_of_testBit_eq
  intro i
  simp only [Nat.testBit_mod_two_pow, Nat.testBit_or]
  by_cases h : i < n <;> simp [h]

theorem build_payload_lt (k : Keyfob) (rnd : Nat) : build_payload k rnd < 2 ^ 64 := by
  unfold build_payload
  exact Nat.or_lt_two_pow (Nat.or_lt_two_pow (Nat.or_lt_two_pow (by norm_num)
    (Nat.mod_lt _ (by norm_num))) (Nat.mod_lt _ (by norm_num))) (Nat.mod_lt _ (by norm_num))

theorem build_payload_sum (k : Keyfob) (rnd : Nat) (hb : k.KEYFOB_BUTTON < 16)
    (hid : k.KEYFOB_ID < 2 ^ 28) (hr : rnd < 256) :
    build_payload k rnd =
      0x2020 * 2 ^ 48 + k.KEYFOB_BUTTON * 2 ^ 48 + rnd * 2 ^ 40 + rnd * 2 ^ 32 +
        k.KEYFOB_ID * 2 ^ 4 + k.KEYFOB_BUTTON := by
  obtain ⟨id, b⟩ := k
  simp only at hb hid ⊢
  have e2 : (0x0001000000000001 * (b % 2 ^ 8)) % 2 ^ 64 = 2 ^ 48 * b ||| b := by
    rw [← Nat.mul_add_lt_is_or (by omega : b < 2 ^ 48), Nat.mod_eq_of_lt (by omega : b < 2 ^ 8),
      Nat.mod_eq_of_lt (by omega)]
    omega
  have e3 : ((((rnd % 2 ^ 64) * 0x101) % 2 ^ 64) <<< 32) % 2 ^ 64 = 2 ^ 32 * (rnd * 257) := by
    rw [Nat.shiftLeft_eq]; omega
  have e4 : ((id % 2 ^ 32) <<< 4) % 2 ^ 64 = 2 ^ 4 * id := by
    rw [Nat.shiftLeft_eq]; omega
  have e1 : (0x2020000000000000 : Nat) = 2 ^ 52 * 0x202 := by norm_num
  have r1 : (2 ^ 52 * 0x202 ||| (2 ^ 48 * b ||| b) ||| 2 ^ 32 * (rnd * 257) ||| 2 ^ 4 * id : Nat) =
      (2 ^ 52 * 0x202 ||| 2 ^ 48 * b) ||| (2 ^ 32 * (rnd * 257) ||| (2 ^ 4 * id ||| b)) := by
    ac_rfl
  have h1 : (2 ^ 52 * 0x202 ||| 2 ^ 48 * b : Nat) = 2 ^ 48 * (0x2020 + b) := by
    rw [← Nat.mul_add_lt_is_or (by omega : 2 ^ 48 * b < 2 ^ 52)]; omega
  unfold build_payload
  simp only [e2, e3, e4]
  rw [e1, r1, h1, ← Nat.mul_add_lt_is_or (by omega : b < 2 ^ 4),
    ← Nat.mul_add_lt_is_or (by omega : 2 ^ 4 * id + b < 2 ^ 32),
    ← Nat.mul_add_lt_is_or (by omega : 2 ^ 32 * (rnd * 257) + (2 ^ 4 * id + b) < 2 ^ 48)]
  omega

theorem build_payload_low (k : Keyfob) (rnd : Nat) (hb : k.KEYFOB_BUTTON < 16)
    (hid : k.KEYFOB_ID < 2 ^ 28) :
    build_payload k rnd % 2 ^ 32 = k.KEYFOB_ID * 2 ^ 4 + k.KEYFOB_BUTTON := by
  obtain ⟨id, b⟩ := k
  simp only at hb hid ⊢
  have e2 : ((0x0001000000000001 * (b % 2 ^ 8)) % 2 ^ 64) % 2 ^ 32 = b := by
    rw [Nat.mod_eq_of_lt (by omega : b < 2 ^ 8),
      Nat.mod_eq_of_lt (by omega : 0x0001000000000001 * b < 2 ^ 64),
      show 0x0001000000000001 * b = 2 ^ 32 * (65536 * b) + b by omega,
      Nat.mul_add_mod, Nat.mod_eq_of_lt (by omega)]
  have e3 : (((((rnd % 2 ^ 64) * 0x101) % 2 ^ 64) <<< 32) % 2 ^ 64) % 2 ^ 32 = 0 := by
    rw [Nat.shiftLeft_eq]; omega
  have e4 : (((id % 2 ^ 32) <<< 4) % 2 ^ 64) % 2 ^ 32 = 2 ^ 4 * id := by
    rw [Nat.shiftLeft_eq]; omega
  unfold build_payload
  simp only [or_mod_two_pow, e2, e3, e4]
  rw [show (0x2020000000000000 : Nat) % 2 ^ 32 = 0 by norm_num, Nat.zero_or, Nat.or_zero,
    Nat.or_comm, ← Nat.mul_add_lt_is_or (by omega : b < 2 ^ 4)]
  omega
theorem field_extract (x hi f lo n w : Nat) (hx : x = (hi * 2 ^ w + f) * 2 ^ n + lo)
    (hlo : lo < 2 ^ n) (hf : f < 2 ^ w) : (x >>> n) % 2 ^ w = f := by
  have hpos : 0 < 2 ^ n := Nat.two_pow_pos n
  rw [Nat.shiftRight_eq_div_pow, hx, Nat.add_comm, Nat.add_mul_div_right _ _ hpos,
    Nat.div_eq_of_lt hlo, Nat.zero_add, Nat.add_comm, Nat.add_mul_mod_self_right,
    Nat.mod_eq_of_lt hf]

theorem last_write_concat (pin : Nat) (level : Bool) (es : List Event) :
    last_write pin (es ++ [Event.pinWrite pin level]) = some level := by
  induction es with
  | nil => simp [last_write]
  | cons e es ih =>
    cases e <;> simp [last_write, ih]

theorem transmit_data_eq (k : Keyfob) (rnd : Nat) (s : State) (h : s.tx_allowed = true) :
    transmit_data k rnd s =
      { s with payload := build_payload k rnd,
               data_bit := 1,
               tx_allowed := false,
               pins := Function.update s.pins PIN_TRANSMITTER LOW,
               trace := s.trace ++ (List.replicate 4 (spec_packet (build_payload k rnd))).flatten ++
                 [Event.pinWrite PIN_TRANSMITTER LOW] } := by
  simp [transmit_data, h, send_data_eq, digitalWrite]

theorem vcc_read_some (adch adcl : Nat) (s : State)
    (h : ((adch % 2 ^ 8) <<< 8) ||| (adcl % 2 ^ 8) ≠ 0) :
    vcc_read adch adcl s =
      some { s with ADMUX := ADMUX_VREF,
                    ADCSRA := (s.ADCSRA ||| 2 ^ ADSC) - 2 ^ ADSC,
                    vcc := ((VREF_ACTUAL_MV * 1024) % 2 ^ 32) /
                      (((adch % 2 ^ 8) <<< 8) ||| (adcl % 2 ^ 8)),
                    trace := s.trace ++ [Event.delay 10, Event.analogReferenceDefault,
                      Event.analogRead A5] } := by
  unfold vcc_read
  simp only [emit]
  rw [if_neg h]
  simp

theorem show_charge_isSome (a adch adcl b : Nat) (s : State)
    (h : ((adch % 2 ^ 8) <<< 8) ||| (adcl % 2 ^ 8) ≠ 0) :
    ∃ s1, show_charge a adch adcl b s = some s1 := by
  unfold show_charge
  split
  · rw [vcc_read_some adch adcl s h]
    exact ⟨_, rfl⟩
  · exact ⟨_, rfl⟩

theorem led_pins_ne :
    PIN_LED_RED ≠ PIN_TRANSMITTER ∧ PIN_LED_YELLOW ≠ PIN_TRANSMITTER ∧
    PIN_LED_GREEN ≠ PIN_TRANSMITTER := by decide

theorem vcc_read_none (adch adcl : Nat) (s : State)
    (h : ((adch % 2 ^ 8) <<< 8) ||| (adcl % 2 ^ 8) = 0) :
    vcc_read adch adcl s = none := by
  unfold vcc_read
  simp only [emit]
  rw [if_pos h]

theorem show_charge_charging_frame (s : State) :
    (show_charge_charging s).tx_allowed = s.tx_allowed ∧
    (show_charge_charging s).button_pressed = s.button_pressed ∧
    (show_charge_charging s).charger_connected = s.charger_connected ∧
    (show_charge_charging s).wake_up_timer = s.wake_up_timer ∧
    (show_charge_charging s).transmit_timer = s.transmit_timer ∧
    ∃ evs, (show_charge_charging s).trace = s.trace ++ evs ∧
      ∀ l, Event.pinWrite PIN_TRANSMITTER l ∉ evs := by
  obtain ⟨hr, hy, hg⟩ := led_pins_ne
  simp only [show_charge_charging, digitalWrite]
  split_ifs <;>
  · refine ⟨rfl, rfl, rfl, rfl, rfl, ?_⟩
    simp only [List.append_assoc]
    refine ⟨_, rfl, ?_⟩
    intro l
    simp [hr.symm, hy.symm, hg.symm]

theorem show_charge_battery_frame (s : State) :
    (show_charge_battery s).tx_allowed = s.tx_allowed ∧
    (show_charge_battery s).button_pressed = s.button_pressed ∧
    (show_charge_battery s).charger_connected = s.charger_connected ∧
    (show_charge_battery s).wake_up_timer = s.wake_up_timer ∧
    (show_charge_battery s).transmit_timer = s.transmit_timer ∧
    ∃ evs, (show_charge_battery s).trace = s.trace ++ evs ∧
      ∀ l, Event.pinWrite PIN_TRANSMITTER l ∉ evs := by
  obtain ⟨hr, hy, hg⟩ := led_pins_ne
  simp only [show_charge_battery, digitalWrite]
  split_ifs <;>
  · refine ⟨rfl, rfl, rfl, rfl, rfl, ?_⟩
    simp only [List.append_assoc]
    refine ⟨_, rfl, ?_⟩
    intro l
    simp [hr.symm, hy.symm, hg.symm]

theorem show_charge_frame (a adch adcl b : Nat) (s s1 : State)
    (h : show_charge a adch adcl b s = some s1) :
    s1.tx_allowed = s.tx_allowed ∧ s1.button_pressed = s.button_pressed ∧
    s1.charger_connected = s.charger_connected ∧ s1.wake_up_timer = s.wake_up_timer ∧
    s1.transmit_timer = s.transmit_timer ∧
    ∃ evs, s1.trace = s.trace ++ evs ∧ ∀ l, Event.pinWrite PIN_TRANSMITTER l ∉ evs := by
  unfold show_charge at h
  by_cases hdue : elapsed a s.show_charge_timer ≥ s.show_charge_period % 2 ^ 64
  · rw [if_pos hdue] at h
    by_cases hraw : ((adch % 2 ^ 8) <<< 8) ||| (adcl % 2 ^ 8) = 0
    · rw [vcc_read_none adch adcl s hraw] at h
      exact absurd h (by simp)
    · rw [vcc_read_some adch adcl s hraw] at h
      simp only [Option.some.injEq] at h
      subst h
      split_ifs
      · obtain ⟨h1, h2, h3, h4, h5, evs, h6, h7⟩ := show_charge_charging_frame
          { s with ADMUX := ADMUX_VREF,
                   ADCSRA := (s.ADCSRA ||| 2 ^ ADSC) - 2 ^ ADSC,
                   vcc := ((VREF_ACTUAL_MV * 1024) % 2 ^ 32) /
                     (((adch % 2 ^ 8) <<< 8) ||| (adcl % 2 ^ 8)),
                   trace := s.trace ++ [Event.delay 10, Event.analogReferenceDefault,
                     Event.analogRead A5] }
        refine ⟨h1, h2, h3, h4, h5,
          [Event.delay 10, Event.analogReferenceDefault, Event.analogRead A5] ++ evs, ?_, ?_⟩
        · show (show_charge_charging _).trace = _
          rw [h6, List.append_assoc]
        · intro l
          simp [h7 l]
      · obtain ⟨h1, h2, h3, h4, h5, evs, h6, h7⟩ := show_charge_battery_frame
          { s with ADMUX := ADMUX_VREF,
                   ADCSRA := (s.ADCSRA ||| 2 ^ ADSC) - 2 ^ ADSC,
                   vcc := ((VREF_ACTUAL_MV * 1024) % 2 ^ 32) /
                     (((adch % 2 ^ 8) <<< 8) ||| (adcl % 2 ^ 8)),
                   trace := s.trace ++ [Event.delay 10, Event.analogReferenceDefault,
                     Event.analogRead A5] }
        refine ⟨h1, h2, h3, h4, h5,
          [Event.delay 10, Event.analogReferenceDefault, Event.analogRead A5] ++ evs, ?_, ?_⟩
        · show (show_charge_battery _).trace = _
          rw [h6, List.append_assoc]
        · intro l
          simp [h7 l]
  · rw [if_neg hdue] at h
    simp only [Option.some.injEq] at h
    subst h
    exact ⟨rfl, rfl, rfl, rfl, rfl, [], by simp, by simp⟩

theorem run_wake_ups_trace (ws : List (Nat × Nat)) (s : State) :
    (run_wake_ups ws s).trace = s.trace := by
  induction ws generalizing s with
  | nil => rfl
  | cons w ws ih => rw [run_wake_ups, ih]; rfl

theorem run_wake_ups_tx_allowed (ws : List (Nat × Nat)) (s : State) (h : s.tx_allowed = true) :
    (run_wake_ups ws s).tx_allowed = true := by
  induction ws generalizing s with
  | nil => exact h
  | cons w ws ih => rw [run_wake_ups]; exact ih _ rfl

theorem sleep_begin_trace (w : Nat × Nat) (ws : List (Nat × Nat)) (s : State) :
    (sleep_begin w ws s).trace = s.trace ++
      [Event.pinWrite PIN_LED_RED LOW, Event.pinWrite PIN_LED_YELLOW LOW,
       Event.pinWrite PIN_LED_GREEN LOW, Event.pinWrite PIN_TRANSMITTER LOW,
       Event.attachInterrupt PIN_BTN, Event.attachInterrupt PIN_CHG, Event.powerDown,
       Event.detachInterrupt PIN_BTN, Event.detachInterrupt PIN_CHG] := by
  simp [sleep_begin, emit, run_wake_ups_trace, digitalWrite]

theorem sleep_begin_tx_allowed (w : Nat × Nat) (ws : List (Nat × Nat)) (s : State) :
    (sleep_begin w ws s).tx_allowed = true := by
  simp only [sleep_begin, emit, run_wake_ups]
  exact run_wake_ups_tx_allowed _ _ rfl

theorem loop_head_frame (e : TickEnv) (s : State) :
    (loop_head e s).button_pressed = !e.btn_pin ∧ (loop_head e s).trace = s.trace := by
  unfold loop_head loop_grant check_button check_charger
  split <;> exact ⟨rfl, rfl⟩

theorem adc_raw_eq (adch adcl : Nat) :
    adc_raw adch adcl = ((adch % 2 ^ 8) <<< 8) ||| (adcl % 2 ^ 8) := rfl

theorem loop_head_inputs (e : TickEnv) (s : State) :
    (loop_head e s).charger_connected = !e.chg_pin ∧
    (loop_head e s).wake_up_timer = s.wake_up_timer ∧
    (loop_head e s).pins = s.pins ∧
    (loop_head e s).show_charge_period = s.show_charge_period := by
  unfold loop_head loop_grant check_button check_charger
  split <;> exact ⟨rfl, rfl, rfl, rfl⟩

theorem loop_tail_eq (k : Keyfob) (e : TickEnv) (s : State) :
    loop_tail k e s =
      if loop_sleeps k e s then sleep_begin e.wake e.rewakes (loop_awake k e s)
      else loop_awake k e s := by
  simp only [loop_tail, loop_sleeps, loop_awake, decide_eq_true_eq]

theorem run_wake_ups_pins (ws : List (Nat × Nat)) (s : State) :
    (run_wake_ups ws s).pins = s.pins := by
  induction ws generalizing s with
  | nil => rfl
  | cons w ws ih => rw [run_wake_ups, ih]; rfl

theorem sleep_begin_pins (w : Nat × Nat) (ws : List (Nat × Nat)) (s : State) :
    (sleep_begin w ws s).pins PIN_LED_RED = LOW ∧
    (sleep_begin w ws s).pins PIN_LED_YELLOW = LOW ∧
    (sleep_begin w ws s).pins PIN_LED_GREEN = LOW ∧
    (sleep_begin w ws s).pins PIN_TRANSMITTER = LOW := by
  simp only [sleep_begin, emit, run_wake_ups_pins, digitalWrite]
  refine ⟨?_, ?_, ?_, ?_⟩ <;>
    simp [Function.update, PIN_LED_RED, PIN_LED_YELLOW, PIN_LED_GREEN, PIN_TRANSMITTER, A4, A5]

theorem show_charge_due (a adch adcl b : Nat) (s : State)
    (hdue : elapsed a s.show_charge_timer ≥ s.show_charge_period % 2 ^ 64)
    (hraw : adc_raw adch adcl ≠ 0) :
    ∃ m, vcc_read adch adcl s = some m ∧
      m.vcc = 1101 * 1024 / adc_raw adch adcl ∧ m.pins = s.pins ∧
      m.show_charge_stage = s.show_charge_stage ∧
      m.show_charge_period = s.show_charge_period ∧
      m.charger_connected = s.charger_connected ∧
      m.trace = s.trace ++ [Event.delay 10, Event.analogReferenceDefault,
        Event.analogRead A5] ∧
      show_charge a adch adcl b s =
        some { (if s.charger_connected then show_charge_charging m
                else show_charge_battery m) with show_charge_timer := b } := by
  refine ⟨_, vcc_read_some adch adcl s hraw, rfl, rfl, rfl, rfl, rfl, rfl, ?_⟩
  unfold show_charge
  rw [if_pos hdue, vcc_read_some adch adcl s hraw]

theorem led_pins_distinct :
    PIN_LED_RED ≠ PIN_LED_YELLOW ∧ PIN_LED_RED ≠ PIN_LED_GREEN ∧
    PIN_LED_YELLOW ≠ PIN_LED_GREEN := by decide

theorem show_charge_battery_steady (s : State) (h : s.vcc ≥ 3450) :
    (show_charge_battery s).pins PIN_LED_RED = HIGH ∧
    (show_charge_battery s).pins PIN_LED_YELLOW = decide (s.vcc ≥ 3600) ∧
    (show_charge_battery s).pins PIN_LED_GREEN = decide (s.vcc ≥ 3750) ∧
    (show_charge_battery s).show_charge_stage = s.show_charge_stage ∧
    (show_charge_battery s).show_charge_period = s.show_charge_period ∧
    (show_charge_battery s).vcc = s.vcc := by
  obtain ⟨hry, hrg, hyg⟩ := led_pins_distinct
  have h1 : s.vcc ≥ VCC_RED_TRH := h
  simp only [show_charge_battery, digitalWrite, if_pos h1, VCC_YELLOW_TRH, VCC_GREEN_TRH]
  by_cases hy : s.vcc ≥ 3600 <;> by_cases hg : s.vcc ≥ 3750 <;>
    simp [hy, hg, Function.update, hry, hrg, hyg, hry.symm, hrg.symm, hyg.symm, HIGH, LOW]

theorem show_charge_battery_low (s : State) (h : s.vcc < 3450) :
    (show_charge_battery s).show_charge_period = 100 ∧
    (show_charge_battery s).pins PIN_LED_RED = s.show_charge_stage ∧
    (show_charge_battery s).show_charge_stage = !s.show_charge_stage ∧
    (∀ p, p ≠ PIN_LED_RED → (show_charge_battery s).pins p = s.pins p) ∧
    (show_charge_battery s).trace = s.trace ++ [Event.pinWrite PIN_LED_RED s.show_charge_stage] := by
  have h1 : ¬ s.vcc ≥ VCC_RED_TRH := by simp only [VCC_RED_TRH]; omega
  unfold show_charge_battery
  rw [if_neg h1]
  refine ⟨rfl, by simp [digitalWrite], rfl, ?_, rfl⟩
  intro p hp
  simp [digitalWrite, Function.update, hp]

theorem show_charge_charging_light (s : State) (h : s.show_charge_stage = true) :
    (show_charge_charging s).pins PIN_LED_RED = HIGH ∧
    (show_charge_charging s).pins PIN_LED_YELLOW = decide (s.vcc > 3450) ∧
    (show_charge_charging s).pins PIN_LED_GREEN = decide (s.vcc > 3600) := by
  obtain ⟨hry, hrg, hyg⟩ := led_pins_distinct
  simp only [show_charge_charging, digitalWrite, h, if_true, VCC_RED_TRH, VCC_YELLOW_TRH]
  by_cases hy : s.vcc > 3450 <;> by_cases hg : s.vcc > 3600 <;>
    simp [hy, hg, Function.update, hry, hrg, hyg, hry.symm, hrg.symm, hyg.symm, HIGH, LOW]

theorem show_charge_charging_dim (s : State) (h : s.show_charge_stage = false) :
    (show_charge_charging s).trace = s.trace ++
      [Event.pinWrite (if s.vcc > 3600 then PIN_LED_GREEN
        else if s.vcc > 3450 then PIN_LED_YELLOW else PIN_LED_RED) LOW] ∧
    (show_charge_charging s).pins = Function.update s.pins
      (if s.vcc > 3600 then PIN_LED_GREEN
        else if s.vcc > 3450 then PIN_LED_YELLOW else PIN_LED_RED) LOW := by
  simp only [show_charge_charging, digitalWrite, h, VCC_RED_TRH, VCC_YELLOW_TRH]
  by_cases hg : s.vcc > 3600
  · simp [hg]
  · by_cases hy : s.vcc > 3450 <;> simp [hg, hy]

theorem show_charge_charging_flag (s : State) :
    (show_charge_charging s).show_charge_period = 500 ∧
    (show_charge_charging s).show_charge_stage = !s.show_charge_stage ∧
    (show_charge_charging s).vcc = s.vcc := by
  simp only [show_charge_charging, digitalWrite, CHARGE_BLINK_CONNECTED_PERIOD]
  split_ifs <;> exact ⟨rfl, rfl, rfl⟩

theorem build_payload_fields (k : Keyfob) (rnd : Nat) :
    build_payload k rnd =
      payload_frame ||| payload_button k ||| payload_random rnd ||| payload_id k := rfl

theorem and_shift_eq_zero (a q n : Nat) (h : a < 2 ^ n) : (2 ^ n * q) &&& a = 0 := by
  apply Nat.eq_of_testBit_eq
  intro i
  rw [Nat.testBit_and, Nat.testBit_mul_pow_two, Nat.zero_testBit]
  by_cases hi : n ≤ i
  · have hlt : a < 2 ^ i := Nat.lt_of_lt_of_le h (Nat.pow_le_pow_right (by decide) hi)
    rw [Nat.testBit_lt_two_pow hlt, Bool.and_false]
  · simp [hi]

theorem payload_fields_values (k : Keyfob) (rnd : Nat) (hb : k.KEYFOB_BUTTON < 16)
    (hid : k.KEYFOB_ID < 2 ^ 28) (hr : rnd < 256) :
    payload_frame = 2 ^ 52 * 0x202 ∧
    payload_button k = 2 ^ 48 * k.KEYFOB_BUTTON ||| k.KEYFOB_BUTTON ∧
    payload_button k = 2 ^ 48 * k.KEYFOB_BUTTON + k.KEYFOB_BUTTON ∧
    payload_random rnd = 2 ^ 32 * (rnd * 257) ∧
    payload_id k = 2 ^ 4 * k.KEYFOB_ID := by
  obtain ⟨id, b⟩ := k
  simp only at hb hid ⊢
  have e2 : payload_button ⟨id, b⟩ = 2 ^ 48 * b + b := by
    unfold payload_button
    simp only
    rw [Nat.mod_eq_of_lt (by omega : b < 2 ^ 8), Nat.mod_eq_of_lt (by omega)]
    omega
  refine ⟨by unfold payload_frame; norm_num, ?_, e2, ?_, ?_⟩
  · rw [e2, Nat.mul_add_lt_is_or (by omega : b < 2 ^ 48)]
  · unfold payload_random
    rw [Nat.shiftLeft_eq]; omega
  · unfold payload_id
    simp only
    rw [Nat.shiftLeft_eq]; omega

theorem payload_fields_disjoint_aux (k : Keyfob) (rnd : Nat) (hb : k.KEYFOB_BUTTON < 16)
    (hid : k.KEYFOB_ID < 2 ^ 28) (hr : rnd < 256) :
    payload_frame &&& payload_button k = 0 ∧
    payload_frame &&& payload_random rnd = 0 ∧
    payload_frame &&& payload_id k = 0 ∧
    payload_button k &&& payload_random rnd = 0 ∧
    payload_button k &&& payload_id k = 0 ∧
    payload_random rnd &&& payload_id k = 0 := by
  obtain ⟨v1, v2, v2s, v3, v4⟩ := payload_fields_values k rnd hb hid hr
  refine ⟨?_, ?_, ?_, ?_, ?_, ?_⟩
  · rw [v1, v2s]; exact and_shift_eq_zero _ _ _ (by omega)
  · rw [v1, v3]; exact and_shift_eq_zero _ _ _ (by omega)
  · rw [v1, v4]; exact and_shift_eq_zero _ _ _ (by omega)
  · rw [v2, v3, Nat.and_comm, Nat.and_or_distrib_left,
      Nat.and_comm, and_shift_eq_zero _ _ _ (by omega), and_shift_eq_zero _ _ _ (by omega)]
    rfl
  · rw [v2, v4, Nat.and_comm, Nat.and_or_distrib_left,
      Nat.and_comm, and_shift_eq_zero _ _ _ (by omega), and_shift_eq_zero _ _ _ (by omega)]
    rfl
  · rw [v3, v4]; exact and_shift_eq_zero _ _ _ (by omega)

theorem payload_recover (k : Keyfob) (rnd : Nat) (hb : k.KEYFOB_BUTTON < 16)
    (hid : k.KEYFOB_ID < 2 ^ 28) (hr : rnd < 256) :
    build_payload k rnd % 2 ^ 4 = k.KEYFOB_BUTTON ∧
    (build_payload k rnd >>> 4) % 2 ^ 28 = k.KEYFOB_ID ∧
    (build_payload k rnd >>> 32) % 2 ^ 8 = rnd := by
  have hsum := build_payload_sum k rnd hb hid hr
  have hlow := build_payload_low k rnd hb hid
  refine ⟨?_, ?_, ?_⟩
  · rw [hsum]; omega
  · rw [Nat.shiftRight_eq_div_pow]
    clear hsum
    omega
  · exact field_extract _ ((0x2020 + k.KEYFOB_BUTTON) * 2 ^ 8 + rnd) _
      (k.KEYFOB_ID * 2 ^ 4 + k.KEYFOB_BUTTON) 32 8 (by rw [hsum]; omega) (by omega) (by omega)

theorem show_charge_charging_display (s : State) :
    ∃ evs, (show_charge_charging s).trace = s.trace ++ evs ∧
      ∀ ev ∈ evs, is_display ev = true := by
  simp only [show_charge_charging, digitalWrite]
  split_ifs <;>
  · simp only [List.append_assoc]
    refine ⟨_, rfl, ?_⟩
    simp [is_display]

theorem show_charge_battery_display (s : State) :
    ∃ evs, (show_charge_battery s).trace = s.trace ++ evs ∧
      ∀ ev ∈ evs, is_display ev = true := by
  simp only [show_charge_battery, digitalWrite]
  split_ifs <;>
  · simp only [List.append_assoc]
    refine ⟨_, rfl, ?_⟩
    simp [is_display]

theorem show_charge_display (a adch adcl b : Nat) (s s1 : State)
    (h : show_charge a adch adcl b s = some s1) :
    ∃ evs, s1.trace = s.trace ++ evs ∧ ∀ ev ∈ evs, is_display ev = true := by
  by_cases hdue : elapsed a s.show_charge_timer ≥ s.show_charge_period % 2 ^ 64
  · by_cases hraw : adc_raw adch adcl = 0
    · unfold show_charge at h
      rw [if_pos hdue, vcc_read_none adch adcl s hraw] at h
      exact absurd h (by simp)
    · obtain ⟨m, _, _, _, _, _, _, m6, hsc⟩ := show_charge_due a adch adcl b s hdue hraw
      rw [hsc] at h
      simp only [Option.some.injEq] at h
      subst h
      by_cases hc : s.charger_connected = true
      · obtain ⟨evs, h1, h2⟩ := show_charge_charging_display m
        refine ⟨[Event.delay 10, Event.analogReferenceDefault, Event.analogRead A5] ++ evs,
          ?_, ?_⟩
        · simp only [hc, if_true]
          rw [h1, m6, List.append_assoc]
        · intro ev hev
          rcases List.mem_append.mp hev with hm | hm
          · simp only [List.mem_cons, List.mem_singleton, List.not_mem_nil, or_false] at hm
            rcases hm with rfl | rfl | rfl <;> rfl
          · exact h2 ev hm
      · obtain ⟨evs, h1, h2⟩ := show_charge_battery_display m
        refine ⟨[Event.delay 10, Event.analogReferenceDefault, Event.analogRead A5] ++ evs,
          ?_, ?_⟩
        · simp only [hc, Bool.false_eq_true, if_false]
          rw [h1, m6, List.append_assoc]
        · intro ev hev
          rcases List.mem_append.mp hev with hm | hm
          · simp only [List.mem_cons, List.mem_singleton, List.not_mem_nil, or_false] at hm
            rcases hm with rfl | rfl | rfl <;> rfl
          · exact h2 ev hm
  · unfold show_charge at h
    rw [if_neg hdue] at h
    simp only [Option.some.injEq] at h
    subst h
    exact ⟨[], by simp, by simp⟩

theorem tick_shape (k : Keyfob) (e : TickEnv) (s : State)
    (hadc : adc_raw e.adch e.adcl ≠ 0) :
    ∃ s1 evs,
      show_charge e.now_show_check e.adch e.adcl e.now_show_reset (loop_head e s) = some s1 ∧
      loop k e s = some (loop_tail k e s1) ∧
      s1.trace = s.trace ++ evs ∧ (∀ ev ∈ evs, is_display ev = true) ∧
      s1.tx_allowed = (loop_head e s).tx_allowed ∧
      s1.button_pressed = !e.btn_pin ∧
      s1.charger_connected = !e.chg_pin ∧
      s1.wake_up_timer = s.wake_up_timer ∧
      s1.transmit_timer = (loop_head e s).transmit_timer := by
  obtain ⟨s1, hs1⟩ := show_charge_isSome e.now_show_check e.adch e.adcl e.now_show_reset
    (loop_head e s) hadc
  obtain ⟨f1, f2, f3, f4, f5, _⟩ := show_charge_frame _ _ _ _ _ _ hs1
  obtain ⟨evs, d1, d2⟩ := show_charge_display _ _ _ _ _ _ hs1
  obtain ⟨g1, g2⟩ := loop_head_frame e s
  obtain ⟨g3, g4, _, _⟩ := loop_head_inputs e s
  refine ⟨s1, evs, hs1, ?_, ?_, d2, f1, ?_, ?_, ?_, f5⟩
  · unfold loop
    rw [hs1]
  · rw [d1, g2]
  · rw [f2, g1]
  · rw [f3, g3]
  · rw [f4, g4]

theorem loop_head_no_charger (e : TickEnv) (s : State) (h : e.chg_pin = HIGH) :
    (loop_head e s).tx_allowed = s.tx_allowed ∧
    (loop_head e s).transmit_timer = s.transmit_timer := by
  unfold loop_head loop_grant check_button check_charger
  simp [h, HIGH]

theorem loop_awake_frame (k : Keyfob) (e : TickEnv) (s : State) :
    (loop_awake k e s).transmit_timer = s.transmit_timer ∧
    (loop_awake k e s).show_charge_period = s.show_charge_period ∧
    (loop_awake k e s).wake_up_timer =
      (if s.charger_connected || s.button_pressed then e.now_wake_reset
       else s.wake_up_timer) ∧
    (loop_awake k e s).tx_allowed = (s.tx_allowed && !s.button_pressed) ∧
    (loop_awake k e s).trace = s.trace ++
      (if s.button_pressed && s.tx_allowed then
        (List.replicate 4 (spec_packet (build_payload k e.rnd))).flatten ++
          [Event.pinWrite PIN_TRANSMITTER LOW]
       else []) := by
  by_cases hp : s.button_pressed = true
  · by_cases ht : s.tx_allowed = true
    · have e1 := transmit_data_eq k e.rnd s ht
      have hb : (transmit_data k e.rnd s).button_pressed = true := by rw [e1]; exact hp
      have key : loop_awake k e s =
          { transmit_data k e.rnd s with wake_up_timer := e.now_wake_reset } := by
        simp only [loop_awake, hp, if_true, hb, Bool.or_true]
      rw [key, e1]
      simp [hp, ht]
    · have e1 : transmit_data k e.rnd s = s := by simp [transmit_data, ht]
      have key : loop_awake k e s = { s with wake_up_timer := e.now_wake_reset } := by
        simp only [loop_awake, hp, if_true, e1, Bool.or_true]
      rw [key]
      simp [hp, ht]
  · by_cases hc : s.charger_connected = true
    · have key : loop_awake k e s = { s with wake_up_timer := e.now_wake_reset } := by
        simp [loop_awake, hp, hc]
      rw [key]
      simp [hp, hc]
    · have key : loop_awake k e s = s := by
        simp [loop_awake, hp, hc]
      rw [key]
      simp [hp, hc]

theorem run_wake_ups_period (ws : List (Nat × Nat)) (s : State) :
    (run_wake_ups ws s).show_charge_period = s.show_charge_period := by
  induction ws generalizing s with
  | nil => rfl
  | cons w ws ih => rw [run_wake_ups, ih]; rfl

theorem sleep_begin_period (w : Nat × Nat) (ws : List (Nat × Nat)) (s : State) :
    (sleep_begin w ws s).show_charge_period = s.show_charge_period := by
  simp only [sleep_begin, emit, run_wake_ups_period, digitalWrite]

theorem loop_tail_frame (k : Keyfob) (e : TickEnv) (s : State) :
    (loop_tail k e s).show_charge_period = s.show_charge_period ∧
    (loop_sleeps k e s = false →
      (loop_tail k e s).tx_allowed = (s.tx_allowed && !s.button_pressed) ∧
      (loop_tail k e s).transmit_timer = s.transmit_timer ∧
      (loop_tail k e s).trace = s.trace ++
        (if s.button_pressed && s.tx_allowed then
          (List.replicate 4 (spec_packet (build_payload k e.rnd))).flatten ++
            [Event.pinWrite PIN_TRANSMITTER LOW]
         else [])) ∧
    (loop_sleeps k e s = true →
      ∃ evs, (loop_tail k e s).trace = s.trace ++ evs ∧ Event.powerDown ∈ evs) := by
  obtain ⟨a1, a2, _, a4, a5⟩ := loop_awake_frame k e s
  rw [loop_tail_eq]
  refine ⟨?_, ?_, ?_⟩
  · split
    · rw [sleep_begin_period, a2]
    · exact a2
  · intro h
    rw [h]
    exact ⟨a4, a1, a5⟩
  · intro h
    rw [h]
    simp only [if_true]
    rw [sleep_begin_trace, a5, List.append_assoc]
    exact ⟨_, rfl, by simp⟩

theorem pressed_tick (k : Keyfob) (e : TickEnv) (s : State)
    (hbtn : e.btn_pin = LOW) (hchg : e.chg_pin = HIGH)
    (hns : elapsed e.now_sleep_check e.now_wake_reset < TIME_AFTER_WAKE_UP)
    (hadc : adc_raw e.adch e.adcl ≠ 0) :
    ∃ s1 evs, loop k e s = some s1 ∧ (∀ ev ∈ evs, is_display ev = true) ∧
      s1.tx_allowed = false ∧
      s1.trace = s.trace ++ evs ++
        (if s.tx_allowed then
          (List.replicate 4 (spec_packet (build_payload k e.rnd))).flatten ++
            [Event.pinWrite PIN_TRANSMITTER LOW]
         else []) := by
  obtain ⟨s1, evs, _, hloop, htr, hdisp, htx, hbp, _, _, _⟩ := tick_shape k e s hadc
  obtain ⟨n1, _⟩ := loop_head_no_charger e s hchg
  have hp : s1.button_pressed = true := by rw [hbp, hbtn]; rfl
  obtain ⟨_, _, a3, _, _⟩ := loop_awake_frame k e s1
  have hsl : loop_sleeps k e s1 = false := by
    unfold loop_sleeps
    rw [a3, hp, Bool.or_true, if_pos rfl]
    simp only [decide_eq_false_iff_not]
    omega
  obtain ⟨_, hawake, _⟩ := loop_tail_frame k e s1
  obtain ⟨b1, _, b3⟩ := hawake hsl
  refine ⟨_, evs, hloop, hdisp, ?_, ?_⟩
  · rw [b1, hp]; simp
  · rw [b3, htr, hp, htx, n1, Bool.true_and]

theorem pressed_run (k : Keyfob) (es : List TickEnv) (s : State)
    (htx : s.tx_allowed = false)
    (hall : ∀ t ∈ es, t.btn_pin = LOW ∧ t.chg_pin = HIGH ∧
      elapsed t.now_sleep_check t.now_wake_reset < TIME_AFTER_WAKE_UP ∧
      adc_raw t.adch t.adcl ≠ 0) :
    ∃ s1 evs, run k es s = some s1 ∧ (∀ ev ∈ evs, is_display ev = true) ∧
      s1.tx_allowed = false ∧ s1.trace = s.trace ++ evs := by
  induction es generalizing s with
  | nil => exact ⟨s, [], rfl, by simp, htx, by simp⟩
  | cons e es ih =>
    obtain ⟨h1, h2, h3, h4⟩ := hall e (List.mem_cons_self _ _)
    obtain ⟨s1, evs1, hl, hd1, ht1, htr1⟩ := pressed_tick k e s h1 h2 h3 h4
    obtain ⟨s2, evs2, hr, hd2, ht2, htr2⟩ := ih s1 ht1
      (fun t ht => hall t (List.mem_cons_of_mem _ ht))
    refine ⟨s2, evs1 ++ evs2, ?_, ?_, ht2, ?_⟩
    · rw [run, hl]
      exact hr
    · intro ev hev
      rcases List.mem_append.mp hev with h | h
      · exact hd1 ev h
      · exact hd2 ev h
    · rw [htr2, htr1, htx]
      simp

theorem held_button_run (k : Keyfob) (e : TickEnv) (es : List TickEnv) (s : State)
    (htx : s.tx_allowed = true)
    (hall : ∀ t ∈ e :: es, t.btn_pin = LOW ∧ t.chg_pin = HIGH ∧
      elapsed t.now_sleep_check t.now_wake_reset < TIME_AFTER_WAKE_UP ∧
      adc_raw t.adch t.adcl ≠ 0) :
    ∃ s1 evs1 evs2, run k (e :: es) s = some s1 ∧ s1.tx_allowed = false ∧
      s1.trace = s.trace ++ evs1 ++
        (List.replicate 4 (spec_packet (build_payload k e.rnd))).flatten ++
        [Event.pinWrite PIN_TRANSMITTER LOW] ++ evs2 ∧
      (∀ ev ∈ evs1 ++ evs2, is_display ev = true) := by
  obtain ⟨h1, h2, h3, h4⟩ := hall e (List.mem_cons_self _ _)
  obtain ⟨s1, evs1, hl, hd1, ht1, htr1⟩ := pressed_tick k e s h1 h2 h3 h4
  obtain ⟨s2, evs2, hr, hd2, ht2, htr2⟩ := pressed_run k es s1 ht1
    (fun t ht => hall t (List.mem_cons_of_mem _ ht))
  refine ⟨s2, evs1, evs2, ?_, ht2, ?_, ?_⟩
  · rw [run, hl]
    exact hr
  · rw [htr2, htr1, htx]
    simp
  · intro ev hev
    rcases List.mem_append.mp hev with h | h
    · exact hd1 ev h
    · exact hd2 ev h

theorem is_display_not_sleep (ev : Event) (h : is_display ev = true) :
    ev ≠ Event.powerDown ∧ (∀ p, ev ≠ Event.attachInterrupt p) ∧
    (∀ l, ev ≠ Event.pinWrite PIN_TRANSMITTER l) ∧ (∀ us, ev ≠ Event.delayMicroseconds us) := by
  cases ev <;> simp [is_display] at h ⊢
  rcases h with (h | h) | h <;> subst h <;> decide

theorem loop_tail_trace (k : Keyfob) (e : TickEnv) (s : State) :
    (loop_tail k e s).trace = s.trace ++
      (if s.button_pressed && s.tx_allowed then
        (List.replicate 4 (spec_packet (build_payload k e.rnd))).flatten ++
          [Event.pinWrite PIN_TRANSMITTER LOW]
       else []) ++
      (if loop_sleeps k e s then sleep_events else []) := by
  obtain ⟨_, _, _, _, a5⟩ := loop_awake_frame k e s
  rw [loop_tail_eq]
  cases loop_sleeps k e s
  · simp only [Bool.false_eq_true, if_false, List.append_nil]
    exact a5
  · simp only [if_true]
    rw [sleep_begin_trace, a5]
    rfl

theorem quiet_tick (k : Keyfob) (e : TickEnv) (s : State)
    (hchg : e.chg_pin = HIGH) (hadc : adc_raw e.adch e.adcl ≠ 0)
    (htx : s.tx_allowed = false) :
    ∃ s1 evs,
      show_charge e.now_show_check e.adch e.adcl e.now_show_reset (loop_head e s) = some s1 ∧
      loop k e s = some (loop_tail k e s1) ∧
      (loop_awake k e s1).tx_allowed = false ∧
      (loop_sleeps k e s1 = false → (loop_tail k e s1).tx_allowed = false) ∧
      (∀ ev ∈ evs, is_display ev = true) ∧
      (loop_tail k e s1).trace = s.trace ++ evs ++
        (if loop_sleeps k e s1 then sleep_events else []) := by
  obtain ⟨s1, evs, hs1, hloop, htr, hdisp, ht1, _, _, _, _⟩ := tick_shape k e s hadc
  obtain ⟨n1, _⟩ := loop_head_no_charger e s hchg
  have ht : s1.tx_allowed = false := by rw [ht1, n1, htx]
  obtain ⟨_, _, _, a4, _⟩ := loop_awake_frame k e s1
  obtain ⟨_, hawake, _⟩ := loop_tail_frame k e s1
  refine ⟨s1, evs, hs1, hloop, ?_, ?_, hdisp, ?_⟩
  · rw [a4, ht]; rfl
  · intro hsl
    rw [(hawake hsl).1, ht]; rfl
  · rw [loop_tail_trace, ht, htr]
    simp

theorem quiet_run (k : Keyfob) (es : List TickEnv) (s : State)
    (hall : ∀ t ∈ es, t.chg_pin = HIGH ∧ adc_raw t.adch t.adcl ≠ 0)
    (hinv : Event.powerDown ∉ s.trace →
      s.tx_allowed = false ∧ ∀ ev ∈ s.trace, is_display ev = true) :
    ∃ s1, run k es s = some s1 ∧
      (Event.powerDown ∉ s1.trace →
        s1.tx_allowed = false ∧ ∀ ev ∈ s1.trace, is_display ev = true) := by
  induction es generalizing s with
  | nil => exact ⟨s, rfl, hinv⟩
  | cons e es ih =>
    obtain ⟨h1, h2⟩ := hall e (List.mem_cons_self _ _)
    have hrest : ∀ t ∈ es, t.chg_pin = HIGH ∧ adc_raw t.adch t.adcl ≠ 0 :=
      fun t ht => hall t (List.mem_cons_of_mem _ ht)
    by_cases hpd : Event.powerDown ∈ s.trace
    · obtain ⟨s1, evs, _, hloop, htr, _⟩ := tick_shape k e s h2
      have hpd1 : Event.powerDown ∈ (loop_tail k e s1).trace := by
        rw [loop_tail_trace, htr]
        simp [hpd]
      obtain ⟨s2, hr, hi2⟩ := ih (loop_tail k e s1) hrest (fun h => absurd hpd1 h)
      exact ⟨s2, by rw [run, hloop]; exact hr, hi2⟩
    · obtain ⟨htx, hds⟩ := hinv hpd
      obtain ⟨s1, evs, _, hloop, _, hq, hdisp, htr⟩ := quiet_tick k e s h1 h2 htx
      have hinv1 : Event.powerDown ∉ (loop_tail k e s1).trace →
          (loop_tail k e s1).tx_allowed = false ∧
            ∀ ev ∈ (loop_tail k e s1).trace, is_display ev = true := by
        intro hn
        cases hsl : loop_sleeps k e s1
        · refine ⟨hq hsl, ?_⟩
          rw [htr, hsl]
          intro ev hev
          simp only [Bool.false_eq_true, if_false, List.append_nil] at hev
          rcases List.mem_append.mp hev with h | h
          · exact hds ev h
          · exact hdisp ev h
        · exfalso
          apply hn
          rw [htr, hsl]
          simp [sleep_events]
      obtain ⟨s2, hr, hi2⟩ := ih (loop_tail k e s1) hrest hinv1
      exact ⟨s2, by rw [run, hloop]; exact hr, hi2⟩

theorem show_charge_period_cases (a adch adcl b : Nat) (s s1 : State)
    (h : show_charge a adch adcl b s = some s1)
    (hok : s.charger_connected = false → 1101 * 1024 / adc_raw adch adcl ≥ 3450) :
    s1.show_charge_period = s.show_charge_period ∨
    (s.charger_connected = true ∧ s1.show_charge_period = 500) := by
  by_cases hdue : elapsed a s.show_charge_timer ≥ s.show_charge_period % 2 ^ 64
  · by_cases hraw : adc_raw adch adcl = 0
    · unfold show_charge at h
      rw [if_pos hdue, vcc_read_none adch adcl s hraw] at h
      exact absurd h (by simp)
    · obtain ⟨m, _, m1, _, _, m4, _, _, hsc⟩ := show_charge_due a adch adcl b s hdue hraw
      rw [hsc] at h
      simp only [Option.some.injEq] at h
      subst h
      by_cases hc : s.charger_connected = true
      · right
        refine ⟨hc, ?_⟩
        simp only [hc, if_true]
        exact (show_charge_charging_flag m).1
      · left
        simp only [Bool.not_eq_true] at hc
        simp only [hc, Bool.false_eq_true, if_false]
        obtain ⟨_, _, _, _, p5, _⟩ := show_charge_battery_steady m (by rw [m1]; exact hok hc)
        rw [p5, m4]
  · unfold show_charge at h
    rw [if_neg hdue] at h
    simp only [Option.some.injEq] at h
    subst h
    exact Or.inl rfl

theorem tick_period (k : Keyfob) (e : TickEnv) (s : State)
    (hadc : adc_raw e.adch e.adcl ≠ 0)
    (hok : e.chg_pin = HIGH → 1101 * 1024 / adc_raw e.adch e.adcl ≥ 3450) :
    ∃ s1, loop k e s = some s1 ∧
      (s1.show_charge_period = s.show_charge_period ∨
       (e.chg_pin = LOW ∧ s1.show_charge_period = 500)) := by
  obtain ⟨s1, _, hs1, hloop, _, _, _, _, _, _, _⟩ := tick_shape k e s hadc
  obtain ⟨g3, _, _, g6⟩ := loop_head_inputs e s
  have hcases := show_charge_period_cases _ _ _ _ _ _ hs1 (by
    intro hc
    rw [g3] at hc
    apply hok
    cases hp : e.chg_pin
    · rw [hp] at hc; simp at hc
    · rfl)
  refine ⟨_, hloop, ?_⟩
  rw [(loop_tail_frame k e s1).1]
  rcases hcases with h | ⟨hc, h⟩
  · left; rw [h, g6]
  · right
    refine ⟨?_, h⟩
    rw [g3] at hc
    cases hp : e.chg_pin
    · rfl
    · rw [hp] at hc; simp at hc

theorem period_run (k : Keyfob) (es : List TickEnv) (s : State)
    (hall : ∀ t ∈ es, adc_raw t.adch t.adcl ≠ 0 ∧
      (t.chg_pin = HIGH → 1101 * 1024 / adc_raw t.adch t.adcl ≥ 3450)) :
    ∃ s1, run k es s = some s1 ∧
      (s1.show_charge_period = s.show_charge_period ∨
       ((∃ t ∈ es, t.chg_pin = LOW) ∧ s1.show_charge_period = 500)) := by
  induction es generalizing s with
  | nil => exact ⟨s, rfl, Or.inl rfl⟩
  | cons e es ih =>
    obtain ⟨h1, h2⟩ := hall e (List.mem_cons_self _ _)
    obtain ⟨s1, hl, hp1⟩ := tick_period k e s h1 h2
    obtain ⟨s2, hr, hp2⟩ := ih s1 (fun t ht => hall t (List.mem_cons_of_mem _ ht))
    refine ⟨s2, by rw [run, hl]; exact hr, ?_⟩
    rcases hp2 with h | ⟨⟨t, ht, hc⟩, h⟩
    · rcases hp1 with h' | ⟨hc, h'⟩
      · left; rw [h, h']
      · right
        exact ⟨⟨e, List.mem_cons_self _ _, hc⟩, by rw [h, h']⟩
    · right
      exact ⟨⟨t, List.mem_cons_of_mem _ ht, hc⟩, h⟩

theorem show_charge_charger_period (a adch adcl b : Nat) (s s1 : State)
    (h : show_charge a adch adcl b s = some s1)
    (hc : s.charger_connected = true)
    (hp : s.show_charge_period = 0 ∨ s.show_charge_period = 500) :
    s1.show_charge_period = 500 := by
  by_cases hdue : elapsed a s.show_charge_timer ≥ s.show_charge_period % 2 ^ 64
  · by_cases hraw : adc_raw adch adcl = 0
    · unfold show_charge at h
      rw [if_pos hdue, vcc_read_none adch adcl s hraw] at h
      exact absurd h (by simp)
    · obtain ⟨m, _, _, _, _, _, _, _, hsc⟩ := show_charge_due a adch adcl b s hdue hraw
      rw [hsc] at h
      simp only [Option.some.injEq] at h
      subst h
      simp only [hc, if_true]
      exact (show_charge_charging_flag m).1
  · rcases hp with h0 | h5
    · exact absurd (by rw [h0]; exact Nat.zero_le _) hdue
    · unfold show_charge at h
      rw [if_neg hdue] at h
      simp only [Option.some.injEq] at h
      subst h
      exact h5

theorem tick_period_exact (k : Keyfob) (e : TickEnv) (s : State)
    (hadc : adc_raw e.adch e.adcl ≠ 0)
    (hok : e.chg_pin = HIGH → 1101 * 1024 / adc_raw e.adch e.adcl ≥ 3450)
    (hp : s.show_charge_period = 0 ∨ s.show_charge_period = 500) :
    ∃ s1, loop k e s = some s1 ∧
      (e.chg_pin = LOW → s1.show_charge_period = 500) ∧
      (e.chg_pin = HIGH → s1.show_charge_period = s.show_charge_period) := by
  obtain ⟨s1, _, hs1, hloop, _, _, _, _, _, _, _⟩ := tick_shape k e s hadc
  obtain ⟨g3, _, _, g6⟩ := loop_head_inputs e s
  refine ⟨_, hloop, ?_, ?_⟩
  · intro hc
    rw [(loop_tail_frame k e s1).1]
    exact show_charge_charger_period _ _ _ _ _ _ hs1 (by rw [g3, hc]; rfl) (by rw [g6]; exact hp)
  · intro hc
    rw [(loop_tail_frame k e s1).1]
    rcases show_charge_period_cases _ _ _ _ _ _ hs1 (fun _ => hok hc) with h | ⟨hcc, _⟩
    · rw [h, g6]
    · rw [g3, hc] at hcc
      exact absurd hcc (by decide)

theorem period_run_exact (k : Keyfob) (es : List TickEnv) (s : State)
    (hall : ∀ t ∈ es, adc_raw t.adch t.adcl ≠ 0 ∧
      (t.chg_pin = HIGH → 1101 * 1024 / adc_raw t.adch t.adcl ≥ 3450))
    (hp : s.show_charge_period = 0 ∨ s.show_charge_period = 500) :
    ∃ s1, run k es s = some s1 ∧
      ((∃ t ∈ es, t.chg_pin = LOW) → s1.show_charge_period = 500) ∧
      ((∀ t ∈ es, t.chg_pin = HIGH) → s1.show_charge_period = s.show_charge_period) ∧
      (s.show_charge_period = 500 → s1.show_charge_period = 500) := by
  induction es generalizing s with
  | nil =>
    refine ⟨s, rfl, ?_, fun _ => rfl, fun h => h⟩
    rintro ⟨t, ht, _⟩
    exact absurd ht (List.not_mem_nil t)
  | cons e es ih =>
    obtain ⟨h1, h2⟩ := hall e (List.mem_cons_self _ _)
    obtain ⟨s1, hl, hlow, hhigh⟩ := tick_period_exact k e s h1 h2 hp
    have hcase : e.chg_pin = LOW ∨ e.chg_pin = HIGH := by
      cases e.chg_pin
      · exact Or.inl rfl
      · exact Or.inr rfl
    have hp1 : s1.show_charge_period = 0 ∨ s1.show_charge_period = 500 := by
      rcases hcase with hc | hc
      · exact Or.inr (hlow hc)
      · rw [hhigh hc]; exact hp
    obtain ⟨s2, hr, i1, i2, i3⟩ := ih s1 (fun t ht => hall t (List.mem_cons_of_mem _ ht)) hp1
    refine ⟨s2, by rw [run, hl]; exact hr, ?_, ?_, ?_⟩
    · rintro ⟨t, ht, hc⟩
      rcases List.mem_cons.mp ht with h | h
      · subst h
        exact i3 (hlow hc)
      · exact i1 ⟨t, h, hc⟩
    · intro hnc
      rw [i2 (fun t ht => hnc t (List.mem_cons_of_mem _ ht)),
        hhigh (hnc e (List.mem_cons_self _ _))]
    · intro h5
      apply i3
      rcases hcase with hc | hc
      · exact hlow hc
      · rw [hhigh hc]; exact h5

theorem loop_head_grants (e : TickEnv) (s : State) :
    (loop_head e s).transmit_timer =
      (if loop_grants e s then e.now_tx_reset else s.transmit_timer) ∧
    (loop_head e s).tx_allowed = (loop_grants e s || s.tx_allowed) := by
  unfold loop_head loop_grant loop_grants check_button check_charger
  simp only
  split <;> rename_i h
  · exact ⟨rfl, by simp [h]⟩
  · simp only [Bool.not_eq_true] at h
    exact ⟨rfl, by simp [h]⟩

theorem loop_grants_elapsed (e : TickEnv) (s : State) (h : loop_grants e s = true)
    (hlo : s.transmit_timer ≤ e.now_tx_check) (hw : e.now_tx_check < 2 ^ 64) :
    s.transmit_timer + 1000 ≤ e.now_tx_check := by
  unfold loop_grants at h
  simp only [Bool.and_eq_true, decide_eq_true_eq, TIME_AFTER_WAKE_UP] at h
  have h2 := h.2
  unfold elapsed at h2
  rw [Nat.mod_eq_of_lt hw, Nat.mod_eq_of_lt (by omega : s.transmit_timer < 2 ^ 64)] at h2
  omega

theorem wake_marks_cases (ws : List (Nat × Nat)) (m : Mark) (h : m ∈ wake_marks ws) :
    ∃ w ∈ ws, m = Mark.wake w.1 w.2 := by
  induction ws with
  | nil => simp [wake_marks] at h
  | cons w ws ih =>
    simp only [wake_marks, List.mem_cons] at h
    rcases h with h | h
    · exact ⟨w, List.mem_cons_self _ _, h⟩
    · obtain ⟨w', hw', hm⟩ := ih h
      exact ⟨w', List.mem_cons_of_mem _ hw', hm⟩

theorem wake_marks_pairwise (ws : List (Nat × Nat)) :
    (wake_marks ws).Pairwise (fun a b => spaced a b = true) := by
  induction ws with
  | nil => exact List.Pairwise.nil
  | cons w ws ih =>
    simp only [wake_marks]
    refine List.Pairwise.cons ?_ ih
    intro m hm
    obtain ⟨w', _, rfl⟩ := wake_marks_cases ws m hm
    rfl

theorem wake_readings_mem (ws : List (Nat × Nat)) (w : Nat × Nat) (h : w ∈ ws) :
    w.1 ∈ wake_readings ws ∧ w.2 ∈ wake_readings ws := by
  induction ws with
  | nil => simp at h
  | cons w' ws ih =>
    simp only [wake_readings, List.mem_cons]
    rcases List.mem_cons.mp h with h | h
    · subst h; exact ⟨Or.inl rfl, Or.inr (Or.inl rfl)⟩
    · exact ⟨Or.inr (Or.inr (ih h).1), Or.inr (Or.inr (ih h).2)⟩

theorem run_wake_ups_transmit_timer (w : Nat × Nat) (ws : List (Nat × Nat)) (s : State)
    (hmono : (wake_readings (w :: ws)).Pairwise (· ≤ ·)) :
    (run_wake_ups (w :: ws) s).transmit_timer ∈ wake_readings (w :: ws) ∧
    ∀ x ∈ w :: ws, x.2 ≤ (run_wake_ups (w :: ws) s).transmit_timer := by
  induction ws generalizing w s with
  | nil =>
    refine ⟨?_, ?_⟩
    · simp [run_wake_ups, wake_up, wake_readings]
    · intro x hx
      simp only [List.mem_singleton] at hx
      subst hx
      simp [run_wake_ups, wake_up]
  | cons w' ws ih =>
    have hm2 : (wake_readings (w' :: ws)).Pairwise (· ≤ ·) := by
      simp only [wake_readings, List.pairwise_cons] at hmono ⊢
      exact hmono.2.2
    obtain ⟨i1, i2⟩ := ih w' (wake_up w.1 w.2 s) hm2
    have hrw : run_wake_ups (w :: w' :: ws) s = run_wake_ups (w' :: ws) (wake_up w.1 w.2 s) := rfl
    rw [hrw]
    refine ⟨?_, ?_⟩
    · simp only [wake_readings, List.mem_cons] at i1 ⊢
      exact Or.inr (Or.inr i1)
    · intro x hx
      rcases List.mem_cons.mp hx with h | h
      · subst h
        simp only [wake_readings, List.pairwise_cons] at hmono
        exact hmono.2.1 _ i1
      · exact i2 x h

theorem sleep_begin_transmit_timer (w : Nat × Nat) (ws : List (Nat × Nat)) (s : State)
    (hmono : (wake_readings (w :: ws)).Pairwise (· ≤ ·)) :
    (sleep_begin w ws s).transmit_timer ∈ wake_readings (w :: ws) ∧
    ∀ x ∈ w :: ws, x.2 ≤ (sleep_begin w ws s).transmit_timer := by
  simp only [sleep_begin, emit]
  exact run_wake_ups_transmit_timer w ws _ hmono

theorem tick_transmit_timer (k : Keyfob) (e : TickEnv) (s s1 : State)
    (hs1 : show_charge e.now_show_check e.adch e.adcl e.now_show_reset (loop_head e s) = some s1)
    (hmono : (tick_readings e).Pairwise (· ≤ ·))
    (hlo : ∀ t ∈ tick_readings e, s.transmit_timer ≤ t) :
    ((loop_tail k e s1).transmit_timer = s.transmit_timer ∨
      (loop_tail k e s1).transmit_timer ∈ tick_readings e) ∧
    s.transmit_timer ≤ (loop_tail k e s1).transmit_timer ∧
    (loop_grants e s = true → e.now_tx_reset ≤ (loop_tail k e s1).transmit_timer) ∧
    (loop_sleeps k e s1 = true →
      ∀ x ∈ e.wake :: e.rewakes, x.2 ≤ (loop_tail k e s1).transmit_timer) := by
  obtain ⟨_, _, _, _, f5, _⟩ := show_charge_frame _ _ _ _ _ _ hs1
  obtain ⟨g1, _⟩ := loop_head_grants e s
  obtain ⟨a1, _⟩ := loop_awake_frame k e s1
  have hs1tt : s1.transmit_timer = (if loop_grants e s then e.now_tx_reset
      else s.transmit_timer) := by rw [f5, g1]
  have hwm : (wake_readings (e.wake :: e.rewakes)).Pairwise (· ≤ ·) := by
    simp only [tick_readings, List.pairwise_cons] at hmono
    exact hmono.2.2.2.2.2.2
  have hsub : ∀ t ∈ wake_readings (e.wake :: e.rewakes), t ∈ tick_readings e := by
    intro t ht
    simp only [tick_readings, List.mem_cons]
    exact Or.inr (Or.inr (Or.inr (Or.inr (Or.inr (Or.inr ht)))))
  have htr_le : ∀ t ∈ wake_readings (e.wake :: e.rewakes), e.now_tx_reset ≤ t := by
    intro t ht
    simp only [tick_readings, List.pairwise_cons] at hmono
    exact hmono.2.1 t (by
      simp only [List.mem_cons]
      exact Or.inr (Or.inr (Or.inr (Or.inr ht))))
  have htr_mem : e.now_tx_reset ∈ tick_readings e := by
    simp [tick_readings]
  rw [loop_tail_eq]
  cases hsl : loop_sleeps k e s1
  · simp only [Bool.false_eq_true, if_false]
    rw [a1, hs1tt]
    cases hg : loop_grants e s
    · simp
    · simp only [if_true]
      exact ⟨Or.inr htr_mem, hlo _ htr_mem, fun _ => Nat.le_refl _, fun h => absurd h (by simp)⟩
  · simp only [if_true]
    obtain ⟨w1, w2⟩ := sleep_begin_transmit_timer e.wake e.rewakes (loop_awake k e s1) hwm
    exact ⟨Or.inr (hsub _ w1), hlo _ (hsub _ w1), fun _ => htr_le _ w1, fun _ => w2⟩

theorem marks_spaced (k : Keyfob) (es : List TickEnv) (s : State)
    (hmono : (clock_readings es).Pairwise (· ≤ ·))
    (hlo : ∀ t ∈ clock_readings es, s.transmit_timer ≤ t)
    (hwrap : ∀ t ∈ clock_readings es, t < 2 ^ 64) :
    (marks k es s).Pairwise (fun a b => spaced a b = true) ∧
    ∀ c r, Mark.grant c r ∈ marks k es s → s.transmit_timer + 1000 ≤ c := by
  induction es generalizing s with
  | nil => exact ⟨List.Pairwise.nil, fun c r h => absurd h (by simp [marks])⟩
  | cons e es ih =>
    simp only [clock_readings, List.pairwise_append] at hmono
    obtain ⟨hm1, hm2, hcross⟩ := hmono
    have hlo1 : ∀ t ∈ tick_readings e, s.transmit_timer ≤ t :=
      fun t ht => hlo t (by simp only [clock_readings, List.mem_append]; exact Or.inl ht)
    have hlo2 : ∀ t ∈ clock_readings es, s.transmit_timer ≤ t :=
      fun t ht => hlo t (by simp only [clock_readings, List.mem_append]; exact Or.inr ht)
    have hw2 : ∀ t ∈ clock_readings es, t < 2 ^ 64 :=
      fun t ht => hwrap t (by simp only [clock_readings, List.mem_append]; exact Or.inr ht)
    have htc_mem : e.now_tx_check ∈ tick_readings e := by simp [tick_readings]
    have hgrant : loop_grants e s = true → s.transmit_timer + 1000 ≤ e.now_tx_check :=
      fun hg => loop_grants_elapsed e s hg (hlo1 _ htc_mem)
        (hwrap _ (by simp only [clock_readings, List.mem_append]; exact Or.inl htc_mem))
    have hG : ∀ m ∈ (if loop_grants e s then [Mark.grant e.now_tx_check e.now_tx_reset]
        else []), loop_grants e s = true ∧ m = Mark.grant e.now_tx_check e.now_tx_reset := by
      intro m hm
      cases hg : loop_grants e s
      · rw [hg] at hm; simp at hm
      · rw [hg] at hm
        simp only [if_true, List.mem_singleton] at hm
        exact ⟨rfl, hm⟩
    have hGp : (if loop_grants e s then [Mark.grant e.now_tx_check e.now_tx_reset]
        else []).Pairwise (fun a b => spaced a b = true) := by
      split
      · exact List.pairwise_singleton _ _
      · exact List.Pairwise.nil
    unfold marks
    cases hsc : show_charge e.now_show_check e.adch e.adcl e.now_show_reset (loop_head e s) with
    | none =>
      simp only [List.append_nil]
      refine ⟨hGp, ?_⟩
      intro c r hmem
      obtain ⟨hg, heq⟩ := hG _ hmem
      injection heq with h1 _
      rw [h1]
      exact hgrant hg
    | some s1 =>
      simp only
      obtain ⟨tcase, t1, t2, t3⟩ := tick_transmit_timer k e s s1 hsc hm1 hlo1
      have hlo3 : ∀ t ∈ clock_readings es, (loop_tail k e s1).transmit_timer ≤ t := by
        intro t ht
        rcases tcase with h | h
        · rw [h]; exact hlo2 t ht
        · exact hcross _ h t ht
      obtain ⟨ih1, ih2⟩ := ih (loop_tail k e s1) hm2 hlo3 hw2
      have hW : ∀ m ∈ (if loop_sleeps k e s1 then wake_marks (e.wake :: e.rewakes) else []),
          loop_sleeps k e s1 = true ∧ ∃ w ∈ e.wake :: e.rewakes, m = Mark.wake w.1 w.2 := by
        intro m hm
        cases hsl : loop_sleeps k e s1
        · rw [hsl] at hm; simp at hm
        · rw [hsl] at hm
          exact ⟨rfl, wake_marks_cases _ m hm⟩
      have hWp : (if loop_sleeps k e s1 then wake_marks (e.wake :: e.rewakes)
          else []).Pairwise (fun a b => spaced a b = true) := by
        split
        · exact wake_marks_pairwise _
        · exact List.Pairwise.nil
      refine ⟨?_, ?_⟩
      · rw [List.pairwise_append]
        refine ⟨hGp, ?_, ?_⟩
        · rw [List.pairwise_append]
          refine ⟨hWp, ih1, ?_⟩
          intro a ha b hb
          obtain ⟨hsl, w, hw, rfl⟩ := hW a ha
          cases b with
          | wake _ _ => rfl
          | grant c r =>
            have := ih2 c r hb
            have := t3 hsl w hw
            simp only [spaced, decide_eq_true_eq]
            omega
        · intro a ha b hb
          obtain ⟨hg, rfl⟩ := hG a ha
          cases b with
          | wake _ _ => rfl
          | grant c r =>
            rcases List.mem_append.mp hb with h | h
            · obtain ⟨_, w, _, hw⟩ := hW _ h
              exact absurd hw (by simp)
            · have := ih2 c r h
              have := t2 hg
              simp only [spaced, decide_eq_true_eq]
              omega
      · intro c r hmem
        rcases List.mem_append.mp hmem with h | h
        · obtain ⟨hg, heq⟩ := hG _ h
          injection heq with h1 _
          rw [h1]
          exact hgrant hg
        · rcases List.mem_append.mp h with h | h
          · obtain ⟨_, w, _, hw⟩ := hW _ h
            exact absurd hw (by simp)
          · have := ih2 c r h
            omega

/-! ## Claims -/

/-- C1: `send_bit` encodes one bit by pulse width.  For `data_bit = 0` it emits
TX HIGH, a wait of 826 us, TX LOW, a wait of 413 us; for `data_bit = 1` it emits
TX HIGH, a wait of 413 us, TX LOW, a wait of 826 us.  No latch other than the
transmitter pin changes, every pin write in the emitted actions is a write to
the transmitter pin, and the waits add up to `3 * 413` us whatever the bit. -/
theorem send_bit_pulse_width (s : State) :
    (s.data_bit = 0 → (send_bit s).trace = s.trace ++
      [Event.pinWrite PIN_TRANSMITTER HIGH, Event.delayMicroseconds 826,
       Event.pinWrite PIN_TRANSMITTER LOW, Event.delayMicroseconds 413]) ∧
    (s.data_bit = 1 → (send_bit s).trace = s.trace ++
      [Event.pinWrite PIN_TRANSMITTER HIGH, Event.delayMicroseconds 413,
       Event.pinWrite PIN_TRANSMITTER LOW, Event.delayMicroseconds 826]) ∧
    (∀ pin, pin ≠ PIN_TRANSMITTER → (send_bit s).pins pin = s.pins pin) ∧
    (∀ pin level, Event.pinWrite pin level ∈ (send_bit s).trace.drop s.trace.length →
      pin = PIN_TRANSMITTER) ∧
    duration ((send_bit s).trace.drop s.trace.length) = 3 * 413 ∧
    TIME_PE_US = 413 ∧ TIME_PE_2_US = 2 * 413 := by
  refine ⟨send_bit_trace_zero s, fun h => send_bit_trace_one s (by omega),
    send_bit_pins s, ?_, ?_, rfl, rfl⟩
  · intro pin level hmem
    by_cases h : s.data_bit = 0
    · rw [send_bit_trace_zero s h, List.drop_left] at hmem
      simp at hmem
      rcases hmem with ⟨hp, _⟩ | ⟨hp, _⟩ <;> exact hp
    · rw [send_bit_trace_one s h, List.drop_left] at hmem
      simp at hmem
      rcases hmem with ⟨hp, _⟩ | ⟨hp, _⟩ <;> exact hp
  · by_cases h : s.data_bit = 0
    · rw [send_bit_trace_zero s h, List.drop_left]; rfl
    · rw [send_bit_trace_one s h, List.drop_left]; rfl

/-- Witness for C1 at the power-up state with `data_bit = 1`: the emitted
actions are TX HIGH, 413 us, TX LOW, 826 us. -/
theorem send_bit_pulse_width_witness :
    (send_bit { power_up with data_bit := 1 }).trace =
      [Event.pinWrite 1 true, Event.delayMicroseconds 413,
       Event.pinWrite 1 false, Event.delayMicroseconds 826] :=
  (send_bit_pulse_width { power_up with data_bit := 1 }).2.1 rfl

/-- C2: one call of `send_data` emits exactly 4 repetitions of the same payload,
the payload it has just built; each repetition is the preamble, a wait of
10T = 4130 us, the 64 payload bits from bit 63 down to bit 0, two further `1`
bits and a wait of 39T = 16107 us; the preamble part is what `send_preamble`
emits from any state. -/
theorem send_data_four_packets (k : Keyfob) (rnd : Nat) (s : State) :
    (send_data k rnd s).payload = build_payload k rnd ∧
    (send_data k rnd s).trace =
      s.trace ++ spec_packet (build_payload k rnd) ++ spec_packet (build_payload k rnd) ++
        spec_packet (build_payload k rnd) ++ spec_packet (build_payload k rnd) ∧
    (∀ p, spec_packet p =
      spec_preamble ++ [Event.delayMicroseconds (10 * 413)] ++
        ((List.range 64).reverse.map (fun i => spec_bit (p / 2 ^ i % 2))).flatten ++
        spec_bit 1 ++ spec_bit 1 ++ [Event.delayMicroseconds (39 * 413)]) ∧
    (∀ s0, (send_preamble s0).trace = s0.trace ++ spec_preamble) := by
  refine ⟨?_, ?_, fun p => rfl, ?_⟩
  · rw [send_data_eq]
  · rw [send_data_eq]
    simp [List.replicate]
  · intro s0
    rw [send_preamble_eq]

/-- C3 (amended): the preamble is 12 cycles, each one a wait of 413 us, TX HIGH,
a wait of 413 us, TX LOW.  On the pin this is a HIGH run of 413 us in every
cycle and a LOW run of 413 us after each of the first 11; the LOW write of the
12th cycle is the last action of `send_preamble`, and in a repetition the LOW
run after the 12th HIGH run lasts the 4130 us of the inter-frame gap, up to the
HIGH write of the first payload bit. -/
theorem send_preamble_cycles (s : State) (lvl : Bool) :
    (send_preamble s).trace = s.trace ++ (List.replicate 12
      [Event.delayMicroseconds 413, Event.pinWrite PIN_TRANSMITTER HIGH,
       Event.delayMicroseconds 413, Event.pinWrite PIN_TRANSMITTER LOW]).flatten ∧
    waveform PIN_TRANSMITTER lvl 0 ((send_preamble s).trace.drop s.trace.length) =
      (lvl, 413) :: ((List.replicate 11 [(HIGH, 413), (LOW, 413)]).flatten ++
        [(HIGH, 413), (LOW, 0)]) ∧
    waveform PIN_TRANSMITTER lvl 0 (((send_packet s).trace.drop s.trace.length).take 50) =
      (lvl, 413) :: ((List.replicate 11 [(HIGH, 413), (LOW, 413)]).flatten ++
        [(HIGH, 413), (LOW, 4130), (HIGH, 0)]) := by
  refine ⟨?_, ?_, ?_⟩
  · rw [send_preamble_eq]; rfl
  · rw [send_preamble_eq]
    simp only [List.drop_left]
    rfl
  · rw [send_packet_eq]
    simp only [List.drop_left, spec_packet, spec_payload_bits_succ 63]
    unfold spec_bit
    split <;> rfl

/-- C3 (counterexample): from the power-up state the preamble is not 12 times
(HIGH, 413 us, LOW, 413 us): its waveform ends in a LOW run of 0 us, and in
one repetition the LOW run that follows the 12th HIGH run lasts 4130 us (the
gap alone), after which the first payload bit drives the pin HIGH. -/
theorem preamble_last_low_counterexample :
    (send_preamble power_up).trace ≠ (List.replicate 12
      [Event.pinWrite PIN_TRANSMITTER HIGH, Event.delayMicroseconds 413,
       Event.pinWrite PIN_TRANSMITTER LOW, Event.delayMicroseconds 413]).flatten ∧
    (waveform PIN_TRANSMITTER LOW 0 (send_preamble power_up).trace).getLast? = some (LOW, 0) ∧
    (waveform PIN_TRANSMITTER LOW 0 (send_packet power_up).trace)[23]? = some (HIGH, 413) ∧
    (waveform PIN_TRANSMITTER LOW 0 (send_packet power_up).trace)[24]? = some (LOW, 4130) ∧
    (waveform PIN_TRANSMITTER LOW 0 (send_packet power_up).trace)[25]? = some (HIGH, 826) := by
  refine ⟨by decide, by decide, ?_, ?_, ?_⟩ <;>
  · rw [send_packet_eq]
    set_option maxRecDepth 8000 in decide

/-- C4: round trip over the pulse-width code.  For every 64-bit payload held in
the global `payload`, the 256 actions that one repetition (`send_packet`) emits
for the payload bits (they follow the 48 actions of the preamble and the 10T
wait) decode, pair by pair and most significant bit first, to that payload; and
the payload `send_data` builds always is a 64-bit value. -/
theorem ook_round_trip (s : State) (h : s.payload < 2 ^ 64) :
    decode (((send_packet s).trace.drop (s.trace.length + 49)).take 256) = some s.payload ∧
    ∀ k rnd, build_payload k rnd < 2 ^ 64 := by
  refine ⟨?_, build_payload_lt⟩
  rw [send_packet_payload_slice, decode_payload_bits, Nat.mod_eq_of_lt h]

/-- Witness for C4 at the payload `0x2024123400000004`. -/
theorem ook_round_trip_witness :
    decode (((send_packet { power_up with payload := 0x2024123400000004 }).trace.drop
      (power_up.trace.length + 49)).take 256) = some 0x2024123400000004 :=
  (ook_round_trip { power_up with payload := 0x2024123400000004 } (by decide)).1

/-- C5 (amended): for every 4-bit button code, 28-bit ID and value `rnd < 255`
drawn by `random(0xFF)`, the payload built by `send_data` carries the button
code in two fields that agree: bits 0-3 equal the button code and bits 48-51
equal the button code. -/
theorem button_fields_agree (k : Keyfob) (rnd : Nat) (s : State)
    (hb : k.KEYFOB_BUTTON < 2 ^ 4) (hid : k.KEYFOB_ID < 2 ^ 28) (hr : rnd < 255) :
    (send_data k rnd s).payload % 2 ^ 4 = k.KEYFOB_BUTTON ∧
    ((send_data k rnd s).payload >>> 48) % 2 ^ 4 = k.KEYFOB_BUTTON := by
  have hsum := build_payload_sum k rnd hb hid (by omega)
  have hp : (send_data k rnd s).payload = build_payload k rnd := by rw [send_data_eq]
  rw [hp]
  refine ⟨?_, ?_⟩
  · rw [hsum]; omega
  · exact field_extract _ 0x202 _ (rnd * 2 ^ 40 + rnd * 2 ^ 32 + k.KEYFOB_ID * 2 ^ 4 +
      k.KEYFOB_BUTTON) 48 4 (by rw [hsum]; omega) (by omega) hb

/-- Witness for C5 (amended) with the shipped configuration and `rnd = 0x5A`. -/
theorem button_fields_agree_witness :
    (send_data keyfob_default 0x5A power_up).payload % 2 ^ 4 = 4 ∧
    ((send_data keyfob_default 0x5A power_up).payload >>> 48) % 2 ^ 4 = 4 :=
  button_fields_agree keyfob_default 0x5A power_up (by decide) (by decide) (by decide)

/-- C5 (counterexample): with the shipped configuration (button code 4, ID 0)
and `rnd = 0x5A` the payload is `0x20245A5A00000004`; bits 0-3 are 4 but bits
32-35 are 10, the low nibble of the random byte, not the button code. -/
theorem button_field_32_counterexample :
    keyfob_default.KEYFOB_BUTTON = 4 ∧
    (send_data keyfob_default 0x5A power_up).payload = 0x20245A5A00000004 ∧
    (send_data keyfob_default 0x5A power_up).payload % 2 ^ 4 = 4 ∧
    ((send_data keyfob_default 0x5A power_up).payload >>> 32) % 2 ^ 4 = 10 := by
  rw [send_data_eq]
  decide

/-- C6: for every ID below `2 ^ 28`, every 4-bit button code and every value
`rnd`, bits 4-31 of the payload built by `send_data` equal the ID. -/
theorem id_field (k : Keyfob) (rnd : Nat) (s : State)
    (hb : k.KEYFOB_BUTTON < 2 ^ 4) (hid : k.KEYFOB_ID < 2 ^ 28) :
    ((send_data k rnd s).payload >>> 4) % 2 ^ 28 = k.KEYFOB_ID := by
  have hlow := build_payload_low k rnd hb hid
  have hp : (send_data k rnd s).payload = build_payload k rnd := by rw [send_data_eq]
  rw [hp, Nat.shiftRight_eq_div_pow]
  omega

/-- Witness for C6 with ID `0xABCDEF1`, button 4 and `rnd = 0x5A`. -/
theorem id_field_witness :
    ((send_data { KEYFOB_ID := 0xABCDEF1, KEYFOB_BUTTON := KEYFOB_BUTTON_4 } 0x5A power_up).payload
      >>> 4) % 2 ^ 28 = 0xABCDEF1 :=
  id_field { KEYFOB_ID := 0xABCDEF1, KEYFOB_BUTTON := KEYFOB_BUTTON_4 } 0x5A power_up
    (by decide) (by decide)

/-- C7: for every `rnd < 255`, every 4-bit button code and every 28-bit ID, the
payload built by `send_data` holds `rnd` in bits 32-39 and again in bits 40-47. -/
theorem random_bytes (k : Keyfob) (rnd : Nat) (s : State)
    (hr : rnd < 255) (hb : k.KEYFOB_BUTTON < 2 ^ 4) (hid : k.KEYFOB_ID < 2 ^ 28) :
    ((send_data k rnd s).payload >>> 32) % 2 ^ 8 = rnd ∧
    ((send_data k rnd s).payload >>> 40) % 2 ^ 8 = rnd := by
  have hsum := build_payload_sum k rnd hb hid (by omega)
  have hp : (send_data k rnd s).payload = build_payload k rnd := by rw [send_data_eq]
  rw [hp]
  refine ⟨?_, ?_⟩
  · exact field_extract _ ((0x2020 + k.KEYFOB_BUTTON) * 2 ^ 8 + rnd) _
      (k.KEYFOB_ID * 2 ^ 4 + k.KEYFOB_BUTTON) 32 8 (by rw [hsum]; omega) (by omega) (by omega)
  · exact field_extract _ (0x2020 + k.KEYFOB_BUTTON) _
      (rnd * 2 ^ 32 + k.KEYFOB_ID * 2 ^ 4 + k.KEYFOB_BUTTON) 40 8 (by rw [hsum]; omega)
      (by omega) (by omega)

/-- Witness for C7 with the shipped configuration and `rnd = 0x5A`. -/
theorem random_bytes_witness :
    ((send_data keyfob_default 0x5A power_up).payload >>> 32) % 2 ^ 8 = 0x5A ∧
    ((send_data keyfob_default 0x5A power_up).payload >>> 40) % 2 ^ 8 = 0x5A :=
  random_bytes keyfob_default 0x5A power_up (by decide) (by decide) (by decide)
/-- C8: `transmit_data` consumes the permit.  From every state `tx_allowed` is
false afterwards.  If it was true on entry, the actions emitted are exactly one
`send_data` burst (four packets of the payload just built) followed by a LOW
write to the transmitter pin, which is the last write to that pin and leaves
its latch LOW.  If it was false on entry the state, trace and pins included,
is unchanged. -/
theorem transmit_data_consumes_permit (k : Keyfob) (rnd : Nat) (s : State) :
    (transmit_data k rnd s).tx_allowed = false ∧
    (s.tx_allowed = true →
      (transmit_data k rnd s).trace =
        s.trace ++ (List.replicate 4 (spec_packet (build_payload k rnd))).flatten ++
          [Event.pinWrite PIN_TRANSMITTER LOW] ∧
      (transmit_data k rnd s).trace =
        (send_data k rnd s).trace ++ [Event.pinWrite PIN_TRANSMITTER LOW] ∧
      last_write PIN_TRANSMITTER (transmit_data k rnd s).trace = some LOW ∧
      (transmit_data k rnd s).pins PIN_TRANSMITTER = LOW) ∧
    (s.tx_allowed = false → transmit_data k rnd s = s) := by
  refine ⟨?_, ?_, ?_⟩
  · cases h : s.tx_allowed
    · simp [transmit_data, h]
    · rw [transmit_data_eq k rnd s h]
  · intro h
    rw [transmit_data_eq k rnd s h, send_data_eq]
    refine ⟨rfl, rfl, last_write_concat _ _ _, ?_⟩
    simp
  · intro h
    simp [transmit_data, h]

/-- Witness for C8 from the power-up state with a permit held. -/
theorem transmit_data_consumes_permit_witness :
    last_write PIN_TRANSMITTER
      (transmit_data keyfob_default 0x5A { power_up with tx_allowed := true }).trace = some LOW :=
  ((transmit_data_consumes_permit keyfob_default 0x5A { power_up with tx_allowed := true }).2.1
    rfl).2.2.1

/-- C9 (amended): in every loop tick whose ADC reading is not zero, if a permit is
held after the charger step (`loop_head`), the tick returns, and
* if the button is pressed, the actions after those of `show_charge` are one
  full burst of four packets and the LOW write to the transmitter pin, followed
  only by actions that never drive the transmitter HIGH; when the sleep test
  does not fire (less than 1000 ms between the idle-timer reset and the test)
  nothing follows and `tx_allowed` is false at the end of the tick;
* if the button is not pressed, the tick never drives the transmitter HIGH and
  ends with `tx_allowed = true`: the permit is kept, nothing is sent. -/
theorem loop_transmits_only_when_pressed (k : Keyfob) (e : TickEnv) (s : State)
    (hperm : (loop_head e s).tx_allowed = true)
    (hadc : ((e.adch % 2 ^ 8) <<< 8) ||| (e.adcl % 2 ^ 8) ≠ 0) :
    ∃ s1 s2,
      show_charge e.now_show_check e.adch e.adcl e.now_show_reset (loop_head e s) = some s1 ∧
      loop k e s = some s2 ∧
      (e.btn_pin = LOW →
        (∃ rest, s2.trace = s1.trace ++
            (List.replicate 4 (spec_packet (build_payload k e.rnd))).flatten ++
            [Event.pinWrite PIN_TRANSMITTER LOW] ++ rest ∧
          Event.pinWrite PIN_TRANSMITTER HIGH ∉ rest) ∧
        (elapsed e.now_sleep_check e.now_wake_reset < TIME_AFTER_WAKE_UP →
          s2.tx_allowed = false ∧
          s2.trace = s1.trace ++
            (List.replicate 4 (spec_packet (build_payload k e.rnd))).flatten ++
            [Event.pinWrite PIN_TRANSMITTER LOW])) ∧
      (e.btn_pin = HIGH →
        s2.tx_allowed = true ∧
        Event.pinWrite PIN_TRANSMITTER HIGH ∉ s2.trace.drop s.trace.length) := by
  obtain ⟨s1, hs1⟩ := show_charge_isSome e.now_show_check e.adch e.adcl e.now_show_reset
    (loop_head e s) hadc
  obtain ⟨f1, f2, f3, f4, f5, evs, f6, f7⟩ := show_charge_frame _ _ _ _ _ _ hs1
  obtain ⟨g1, g2⟩ := loop_head_frame e s
  have hloop : loop k e s = some (loop_tail k e s1) := by
    unfold loop
    rw [hs1]
  have ht : s1.tx_allowed = true := by rw [f1, hperm]
  refine ⟨s1, loop_tail k e s1, hs1, hloop, ?_, ?_⟩
  · intro hb
    have hp : s1.button_pressed = true := by rw [f2, g1, hb]; rfl
    have htail : loop_tail k e s1 =
        if elapsed e.now_sleep_check e.now_wake_reset ≥ TIME_AFTER_WAKE_UP then
          sleep_begin e.wake e.rewakes
            { transmit_data k e.rnd s1 with wake_up_timer := e.now_wake_reset }
        else { transmit_data k e.rnd s1 with wake_up_timer := e.now_wake_reset } := by
      have hp2 : (transmit_data k e.rnd s1).button_pressed = true := by
        rw [transmit_data_eq k e.rnd s1 ht]; exact hp
      simp only [loop_tail, hp, if_true, hp2, Bool.or_true]
    rw [htail]
    refine ⟨?_, ?_⟩
    · split
      · refine ⟨[Event.pinWrite PIN_LED_RED LOW, Event.pinWrite PIN_LED_YELLOW LOW,
          Event.pinWrite PIN_LED_GREEN LOW, Event.pinWrite PIN_TRANSMITTER LOW,
          Event.attachInterrupt PIN_BTN, Event.attachInterrupt PIN_CHG, Event.powerDown,
          Event.detachInterrupt PIN_BTN, Event.detachInterrupt PIN_CHG], ?_, ?_⟩
        · rw [sleep_begin_trace]
          show (transmit_data k e.rnd s1).trace ++ _ = _
          rw [transmit_data_eq k e.rnd s1 ht]
        · decide
      · refine ⟨[], ?_, by simp⟩
        show (transmit_data k e.rnd s1).trace = _
        rw [transmit_data_eq k e.rnd s1 ht]
        simp
    · intro hns
      rw [if_neg (by omega)]
      refine ⟨?_, ?_⟩
      · show (transmit_data k e.rnd s1).tx_allowed = false
        rw [transmit_data_eq k e.rnd s1 ht]
      · show (transmit_data k e.rnd s1).trace = _
        rw [transmit_data_eq k e.rnd s1 ht]
  · intro hb
    have hp : s1.button_pressed = false := by rw [f2, g1, hb]; rfl
    have htr : s1.trace = s.trace ++ evs := by rw [f6, g2]
    simp only [loop_tail, hp, Bool.or_false, Bool.false_eq_true, if_false]
    split_ifs
    all_goals refine ⟨?_, ?_⟩
    all_goals first
      | exact sleep_begin_tx_allowed _ _ _
      | exact ht
      | (rw [sleep_begin_trace]
         show Event.pinWrite PIN_TRANSMITTER HIGH ∉ List.drop s.trace.length (s1.trace ++ _)
         rw [htr, List.append_assoc, List.drop_left]
         simp only [List.mem_append, List.mem_cons, Event.pinWrite.injEq, HIGH, LOW, not_or]
         exact ⟨f7 true, by simp⟩)
      | (show Event.pinWrite PIN_TRANSMITTER HIGH ∉ List.drop s.trace.length s1.trace
         rw [htr, List.drop_left]
         exact f7 HIGH)
/-- Witness for C9 (amended): on the charger with the button pressed, from the
power-up state, the tick returns with the permit consumed. -/
theorem loop_transmits_only_when_pressed_witness :
    ∃ s2, loop keyfob_default tick_charger_pressed power_up = some s2 ∧
      s2.tx_allowed = false := by
  obtain ⟨s1, s2, _, h2, hp, _⟩ := loop_transmits_only_when_pressed keyfob_default
    tick_charger_pressed power_up (by decide) (by decide)
  exact ⟨s2, h2, ((hp rfl).2 (by decide)).1⟩

/-- C9 (counterexample): from the power-up state, a tick with the charger
connected, the button not pressed and the cooldown elapsed (clock 1000 ms) holds
a permit after the charger step, yet its whole trace is the ADC measurement and
one LED write, and the permit is still held at the end: no burst is sent. -/
theorem heartbeat_not_sent_counterexample :
    (loop_head tick_charger_released power_up).charger_connected = true ∧
    (loop_head tick_charger_released power_up).button_pressed = false ∧
    elapsed tick_charger_released.now_tx_check power_up.transmit_timer ≥ TIME_AFTER_WAKE_UP ∧
    (loop_head tick_charger_released power_up).tx_allowed = true ∧
    (loop keyfob_default tick_charger_released power_up).map
        (fun s => (s.tx_allowed, s.trace)) =
      some (true, [Event.delay 10, Event.analogReferenceDefault, Event.analogRead A5,
        Event.pinWrite PIN_LED_YELLOW LOW]) := by
  decide
/-- C10: `wake_up` run from any state with both clock readings equal to `now`
leaves `tx_allowed = true`, `wake_up_timer = now` and `transmit_timer = now`,
changes no pin latch (so no LED), emits no action, changes neither the phase
flag nor the refresh period nor the refresh timer, and running it again at the
same clock reading gives the same state. -/
theorem wake_up_grants_permit (now : Nat) (s : State) :
    (wake_up now now s).tx_allowed = true ∧
    (wake_up now now s).wake_up_timer = now ∧
    (wake_up now now s).transmit_timer = now ∧
    (wake_up now now s).pins = s.pins ∧
    (wake_up now now s).trace = s.trace ∧
    (wake_up now now s).show_charge_stage = s.show_charge_stage ∧
    (wake_up now now s).show_charge_period = s.show_charge_period ∧
    (wake_up now now s).show_charge_timer = s.show_charge_timer ∧
    wake_up now now (wake_up now now s) = wake_up now now s := by
  refine ⟨rfl, rfl, rfl, rfl, rfl, rfl, rfl, rfl, ?_⟩
  simp [wake_up, Nat.or_assoc]

/-- C11: in every loop tick (with a non-zero ADC reading) in which the button is
not pressed, the charger is not connected and the clock reading of the sleep
test minus `wake_up_timer` is at least 1000 ms, the tick ends in `sleep_begin`,
run on the state `show_charge` left; and `sleep_begin`, from any state, writes
LOW to the RED, YELLOW and GREEN LED pins and to the transmitter pin, then
attaches the two interrupts, then powers down, leaving those four latches LOW. -/
theorem idle_timeout_sleeps (k : Keyfob) (e : TickEnv) (s : State)
    (hbtn : e.btn_pin = HIGH) (hchg : e.chg_pin = HIGH)
    (hidle : elapsed e.now_sleep_check s.wake_up_timer ≥ TIME_AFTER_WAKE_UP)
    (hadc : adc_raw e.adch e.adcl ≠ 0) :
    (∃ s1, show_charge e.now_show_check e.adch e.adcl e.now_show_reset (loop_head e s) = some s1 ∧
      loop k e s = some (sleep_begin e.wake e.rewakes s1)) ∧
    (∀ w ws s0, (sleep_begin w ws s0).trace = s0.trace ++
      [Event.pinWrite PIN_LED_RED LOW, Event.pinWrite PIN_LED_YELLOW LOW,
       Event.pinWrite PIN_LED_GREEN LOW, Event.pinWrite PIN_TRANSMITTER LOW,
       Event.attachInterrupt PIN_BTN, Event.attachInterrupt PIN_CHG, Event.powerDown,
       Event.detachInterrupt PIN_BTN, Event.detachInterrupt PIN_CHG]) ∧
    (∀ w ws s0, (sleep_begin w ws s0).pins PIN_LED_RED = LOW ∧
      (sleep_begin w ws s0).pins PIN_LED_YELLOW = LOW ∧
      (sleep_begin w ws s0).pins PIN_LED_GREEN = LOW ∧
      (sleep_begin w ws s0).pins PIN_TRANSMITTER = LOW) := by
  refine ⟨?_, sleep_begin_trace, sleep_begin_pins⟩
  obtain ⟨s1, hs1⟩ := show_charge_isSome e.now_show_check e.adch e.adcl e.now_show_reset
    (loop_head e s) hadc
  obtain ⟨_, f2, f3, f4, _, _⟩ := show_charge_frame _ _ _ _ _ _ hs1
  obtain ⟨g1, _⟩ := loop_head_frame e s
  obtain ⟨g3, g4, _, _⟩ := loop_head_inputs e s
  have hp : s1.button_pressed = false := by rw [f2, g1, hbtn]; rfl
  have hc : s1.charger_connected = false := by rw [f3, g3, hchg]; rfl
  have hw : s1.wake_up_timer = s.wake_up_timer := by rw [f4, g4]
  refine ⟨s1, hs1, ?_⟩
  unfold loop
  rw [hs1]
  simp only [loop_tail, hp, hc, Bool.or_false, Bool.false_eq_true, if_false, hw]
  rw [if_pos hidle]

/-- Witness for C11: an idle tick at clock 1000 ms from the power-up state. -/
theorem idle_timeout_sleeps_witness :
    ∃ s1, loop keyfob_default tick_idle_1000 power_up =
      some (sleep_begin tick_idle_1000.wake tick_idle_1000.rewakes s1) := by
  obtain ⟨⟨s1, _, h⟩, _⟩ := idle_timeout_sleeps keyfob_default tick_idle_1000 power_up
    rfl rfl (by decide) (by decide)
  exact ⟨s1, h⟩

/-- C12: for every measured voltage of at least 3450 mV and every prior state of
the LEDs, a due `show_charge` refresh with the charger not connected leaves RED
on, YELLOW on exactly when the voltage is at least 3600 and GREEN on exactly
when it is at least 3750, and changes neither the phase flag nor the refresh
period.  The same holds of the not-charging branch for every value of `vcc`;
at 3500 mV only RED is on. -/
theorem battery_display_steady (a adch adcl b : Nat) (s : State)
    (hdue : elapsed a s.show_charge_timer ≥ s.show_charge_period % 2 ^ 64)
    (hchg : s.charger_connected = false)
    (hv : 1101 * 1024 / adc_raw adch adcl ≥ 3450) :
    (∃ s1, show_charge a adch adcl b s = some s1 ∧
      s1.vcc = 1101 * 1024 / adc_raw adch adcl ∧
      s1.pins PIN_LED_RED = HIGH ∧
      s1.pins PIN_LED_YELLOW = decide (s1.vcc ≥ 3600) ∧
      s1.pins PIN_LED_GREEN = decide (s1.vcc ≥ 3750) ∧
      s1.show_charge_stage = s.show_charge_stage ∧
      s1.show_charge_period = s.show_charge_period) ∧
    (∀ s0 : State, s0.vcc ≥ 3450 →
      (show_charge_battery s0).pins PIN_LED_RED = HIGH ∧
      (show_charge_battery s0).pins PIN_LED_YELLOW = decide (s0.vcc ≥ 3600) ∧
      (show_charge_battery s0).pins PIN_LED_GREEN = decide (s0.vcc ≥ 3750) ∧
      (show_charge_battery s0).show_charge_stage = s0.show_charge_stage ∧
      (show_charge_battery s0).show_charge_period = s0.show_charge_period) ∧
    (∀ s0 : State, s0.vcc = 3500 →
      (show_charge_battery s0).pins PIN_LED_RED = HIGH ∧
      (show_charge_battery s0).pins PIN_LED_YELLOW = LOW ∧
      (show_charge_battery s0).pins PIN_LED_GREEN = LOW) := by
  refine ⟨?_, ?_, ?_⟩
  · have hraw : adc_raw adch adcl ≠ 0 := by
      intro h0
      rw [h0] at hv
      simp at hv
    obtain ⟨m, _, m1, _, m3, m4, _, _, hsc⟩ := show_charge_due a adch adcl b s hdue hraw
    obtain ⟨p1, p2, p3, p4, p5, p6⟩ := show_charge_battery_steady m (by rw [m1]; exact hv)
    rw [hchg] at hsc
    refine ⟨_, hsc, ?_, p1, ?_, ?_, ?_, ?_⟩
    · show (show_charge_battery m).vcc = _
      rw [p6, m1]
    · show (show_charge_battery m).pins PIN_LED_YELLOW = decide ((show_charge_battery m).vcc ≥ 3600)
      rw [p2, p6]
    · show (show_charge_battery m).pins PIN_LED_GREEN = decide ((show_charge_battery m).vcc ≥ 3750)
      rw [p3, p6]
    · show (show_charge_battery m).show_charge_stage = _
      rw [p4, m3]
    · show (show_charge_battery m).show_charge_period = _
      rw [p5, m4]
  · intro s0 h0
    obtain ⟨p1, p2, p3, p4, p5, _⟩ := show_charge_battery_steady s0 h0
    exact ⟨p1, p2, p3, p4, p5⟩
  · intro s0 h0
    obtain ⟨p1, p2, p3, _, _, _⟩ := show_charge_battery_steady s0 (by omega)
    refine ⟨p1, ?_, ?_⟩
    · rw [p2, h0]; rfl
    · rw [p3, h0]; rfl

/-- Witness for C12: the first refresh from power-up with an ADC reading of 320
(3523 mV) lights RED only. -/
theorem battery_display_steady_witness :
    ∃ s1, show_charge 0 1 0x40 0 power_up = some s1 ∧ s1.vcc = 3523 ∧
      s1.pins PIN_LED_RED = HIGH ∧ s1.pins PIN_LED_YELLOW = LOW ∧
      s1.pins PIN_LED_GREEN = LOW := by
  obtain ⟨⟨s1, h, hv, hr, hy, hg, _, _⟩, _, _⟩ :=
    battery_display_steady 0 1 0x40 0 power_up (by decide) rfl (by decide)
  have hv2 : s1.vcc = 3523 := by rw [hv]; decide
  refine ⟨s1, h, hv2, hr, ?_, ?_⟩
  · rw [hy, hv2]; rfl
  · rw [hg, hv2]; rfl

/-- C13 (the code at the failing input): a due low-battery refresh (charger not
connected, measured voltage below 3450 mV) sets the period to 100 ms, writes
the phase flag to the RED LED and flips the flag, so RED alternates on
consecutive such refreshes; it writes no other pin, so YELLOW and GREEN keep
their prior state.  From power-up, two ticks on the charger at 0 and 500 ms
(3523 mV) light RED and YELLOW; the tick at 1000 ms with the charger removed
and 3315 mV is a low-battery refresh, and it ends with RED off, YELLOW still on
and GREEN off. -/
theorem low_battery_refresh_keeps_yellow :
    (∀ (a adch adcl b : Nat) (s : State),
      elapsed a s.show_charge_timer ≥ s.show_charge_period % 2 ^ 64 →
      s.charger_connected = false → adc_raw adch adcl ≠ 0 →
      1101 * 1024 / adc_raw adch adcl < 3450 →
      ∃ s1, show_charge a adch adcl b s = some s1 ∧
        s1.show_charge_period = 100 ∧
        s1.pins PIN_LED_RED = s.show_charge_stage ∧
        s1.show_charge_stage = !s.show_charge_stage ∧
        s1.pins PIN_LED_YELLOW = s.pins PIN_LED_YELLOW ∧
        s1.pins PIN_LED_GREEN = s.pins PIN_LED_GREEN) ∧
    (run keyfob_default [tick_charge_0, tick_charge_500] power_up).map
        (fun s => (s.pins PIN_LED_RED, s.pins PIN_LED_YELLOW, s.pins PIN_LED_GREEN)) =
      some (true, true, false) ∧
    (run keyfob_default [tick_charge_0, tick_charge_500, tick_low_1000] power_up).map
        (fun s => (s.vcc, s.show_charge_period, s.pins PIN_LED_RED, s.pins PIN_LED_YELLOW,
          s.pins PIN_LED_GREEN)) =
      some (3315, 100, false, true, false) := by
  refine ⟨?_, by decide, by decide⟩
  intro a adch adcl b s hdue hchg hraw hv
  obtain ⟨hry, hrg, _⟩ := led_pins_distinct
  obtain ⟨m, _, m1, m2, m3, _, _, _, hsc⟩ := show_charge_due a adch adcl b s hdue hraw
  obtain ⟨p1, p2, p3, p4, _⟩ := show_charge_battery_low m (by rw [m1]; exact hv)
  rw [hchg] at hsc
  refine ⟨_, hsc, p1, ?_, ?_, ?_, ?_⟩
  · show (show_charge_battery m).pins PIN_LED_RED = _
    rw [p2, m3]
  · show (show_charge_battery m).show_charge_stage = _
    rw [p3, m3]
  · show (show_charge_battery m).pins PIN_LED_YELLOW = _
    rw [p4 _ hry.symm, m2]
  · show (show_charge_battery m).pins PIN_LED_GREEN = _
    rw [p4 _ hrg.symm, m2]

/-- C14: for every measured voltage, a due `show_charge` refresh with the charger
connected sets the period to 500 ms and flips the phase flag.  In the lighting
phase (flag true) it leaves RED on, YELLOW on exactly when the voltage exceeds
3450 and GREEN on exactly when it exceeds 3600.  In the other phase it writes
LOW to exactly one LED (GREEN above 3600, else YELLOW above 3450, else RED) and
leaves every other latch as it was.  The same holds of the charging branch for
every value of `vcc`: at 3800 mV the lighting phase gives all three LEDs on and
the next refresh turns only GREEN off. -/
theorem charging_display (a adch adcl b : Nat) (s : State)
    (hdue : elapsed a s.show_charge_timer ≥ s.show_charge_period % 2 ^ 64)
    (hchg : s.charger_connected = true)
    (hraw : adc_raw adch adcl ≠ 0) :
    (∃ s1, show_charge a adch adcl b s = some s1 ∧
      s1.vcc = 1101 * 1024 / adc_raw adch adcl ∧
      s1.show_charge_period = 500 ∧
      s1.show_charge_stage = !s.show_charge_stage ∧
      (s.show_charge_stage = true →
        s1.pins PIN_LED_RED = HIGH ∧
        s1.pins PIN_LED_YELLOW = decide (s1.vcc > 3450) ∧
        s1.pins PIN_LED_GREEN = decide (s1.vcc > 3600)) ∧
      (s.show_charge_stage = false →
        s1.trace = s.trace ++
          [Event.delay 10, Event.analogReferenceDefault, Event.analogRead A5,
           Event.pinWrite (if s1.vcc > 3600 then PIN_LED_GREEN
             else if s1.vcc > 3450 then PIN_LED_YELLOW else PIN_LED_RED) LOW] ∧
        s1.pins = Function.update s.pins
          (if s1.vcc > 3600 then PIN_LED_GREEN
            else if s1.vcc > 3450 then PIN_LED_YELLOW else PIN_LED_RED) LOW)) ∧
    (∀ s0 : State,
      (show_charge_charging s0).show_charge_period = 500 ∧
      (show_charge_charging s0).show_charge_stage = !s0.show_charge_stage ∧
      (s0.show_charge_stage = true →
        (show_charge_charging s0).pins PIN_LED_RED = HIGH ∧
        (show_charge_charging s0).pins PIN_LED_YELLOW = decide (s0.vcc > 3450) ∧
        (show_charge_charging s0).pins PIN_LED_GREEN = decide (s0.vcc > 3600)) ∧
      (s0.show_charge_stage = false →
        (show_charge_charging s0).trace = s0.trace ++
          [Event.pinWrite (if s0.vcc > 3600 then PIN_LED_GREEN
            else if s0.vcc > 3450 then PIN_LED_YELLOW else PIN_LED_RED) LOW] ∧
        (show_charge_charging s0).pins = Function.update s0.pins
          (if s0.vcc > 3600 then PIN_LED_GREEN
            else if s0.vcc > 3450 then PIN_LED_YELLOW else PIN_LED_RED) LOW)) ∧
    (∀ s0 : State, s0.vcc = 3800 → s0.show_charge_stage = true →
      (show_charge_charging s0).pins PIN_LED_RED = HIGH ∧
      (show_charge_charging s0).pins PIN_LED_YELLOW = HIGH ∧
      (show_charge_charging s0).pins PIN_LED_GREEN = HIGH ∧
      (show_charge_charging (show_charge_charging s0)).trace =
        (show_charge_charging s0).trace ++ [Event.pinWrite PIN_LED_GREEN LOW] ∧
      (show_charge_charging (show_charge_charging s0)).pins PIN_LED_RED = HIGH ∧
      (show_charge_charging (show_charge_charging s0)).pins PIN_LED_YELLOW = HIGH ∧
      (show_charge_charging (show_charge_charging s0)).pins PIN_LED_GREEN = LOW) := by
  obtain ⟨hry, hrg, hyg⟩ := led_pins_distinct
  refine ⟨?_, ?_, ?_⟩
  · obtain ⟨m, _, m1, m2, m3, _, _, m6, hsc⟩ := show_charge_due a adch adcl b s hdue hraw
    obtain ⟨q1, q2, q3⟩ := show_charge_charging_flag m
    rw [hchg] at hsc
    simp only [if_true] at hsc
    have hvcc : ({ show_charge_charging m with show_charge_timer := b } : State).vcc =
        1101 * 1024 / adc_raw adch adcl := by
      show (show_charge_charging m).vcc = _
      rw [q3, m1]
    refine ⟨_, hsc, hvcc, q1, ?_, ?_, ?_⟩
    · show (show_charge_charging m).show_charge_stage = _
      rw [q2, m3]
    · intro hst
      obtain ⟨p1, p2, p3⟩ := show_charge_charging_light m (by rw [m3]; exact hst)
      rw [hvcc]
      rw [m1] at p2 p3
      exact ⟨p1, p2, p3⟩
    · intro hst
      obtain ⟨p1, p2⟩ := show_charge_charging_dim m (by rw [m3]; exact hst)
      rw [hvcc]
      rw [m1] at p1 p2
      refine ⟨?_, ?_⟩
      · show (show_charge_charging m).trace = _
        rw [p1, m6]
        simp
      · show (show_charge_charging m).pins = _
        rw [p2, m2]
  · intro s0
    obtain ⟨q1, q2, _⟩ := show_charge_charging_flag s0
    exact ⟨q1, q2, show_charge_charging_light s0, show_charge_charging_dim s0⟩
  · intro s0 hv hst
    obtain ⟨q1, q2, q3⟩ := show_charge_charging_flag s0
    obtain ⟨p1, p2, p3⟩ := show_charge_charging_light s0 hst
    obtain ⟨d1, d2⟩ := show_charge_charging_dim (show_charge_charging s0) (by rw [q2, hst]; rfl)
    rw [q3, hv] at d1 d2
    rw [hv] at p2 p3
    simp only [show (3800 > 3600) from by decide, if_true] at d1 d2
    refine ⟨p1, p2, p3, d1, ?_, ?_, ?_⟩
    · rw [d2]; simp [Function.update, hrg, p1]
    · rw [d2]; simp [Function.update, hyg, p2]; rfl
    · rw [d2]; simp [Function.update, LOW]

/-- Witness for C14: a due refresh on the charger from power-up (flag false,
3523 mV) writes LOW to YELLOW only and sets the flag. -/
theorem charging_display_witness :
    ∃ s1, show_charge 0 1 0x40 0 { power_up with charger_connected := true } = some s1 ∧
      s1.show_charge_period = 500 ∧ s1.show_charge_stage = true := by
  obtain ⟨⟨s1, h, _, hp, hs, _, _⟩, _, _⟩ :=
    charging_display 0 1 0x40 0 { power_up with charger_connected := true }
      (by decide) rfl (by decide)
  exact ⟨s1, h, hp, hs⟩

/-- C17 (the code at the failing input): for every non-zero reading `raw`, in
particular for 1..1023, `vcc_read` returns and stores `1101 * 1024 / raw`, with
`1101 * 1024` and the quotient below `2 ^ 32`; for the reading 0 there is no
guard: `vcc_read` divides by it, so neither it nor a due `show_charge` nor the
loop tick has a defined result. -/
theorem vcc_read_zero_unguarded :
    (∀ (adch adcl : Nat) (s : State), adc_raw adch adcl ≠ 0 →
      ∃ s1, vcc_read adch adcl s = some s1 ∧
        s1.vcc = 1101 * 1024 / adc_raw adch adcl ∧ s1.vcc < 2 ^ 32) ∧
    VREF_ACTUAL_MV * 1024 < 2 ^ 32 ∧
    adc_raw 0 0 = 0 ∧
    vcc_read 0 0 power_up = none ∧
    show_charge 0 0 0 0 power_up = none ∧
    loop keyfob_default tick_adc_zero power_up = none := by
  refine ⟨?_, by decide, by decide, ?_, ?_, ?_⟩
  · intro adch adcl s hraw
    refine ⟨_, vcc_read_some adch adcl s hraw, rfl, ?_⟩
    show 1101 * 1024 % 2 ^ 32 / adc_raw adch adcl < 2 ^ 32
    exact Nat.lt_of_le_of_lt (Nat.div_le_self _ _) (by decide)
  · exact vcc_read_none 0 0 power_up (by decide)
  · unfold show_charge
    rw [if_pos (by decide), vcc_read_none 0 0 power_up (by decide)]
  · unfold loop
    have h : show_charge tick_adc_zero.now_show_check tick_adc_zero.adch tick_adc_zero.adcl
        tick_adc_zero.now_show_reset (loop_head tick_adc_zero power_up) = none := by
      unfold show_charge
      rw [if_pos (by decide), vcc_read_none _ _ _ (by decide)]
    rw [h]

/-- C19: for every button code below 16, ID below `2 ^ 28` and random value below
255, the four operands `send_data` ORs into the payload have pairwise no bit
in common, so the payload is their sum
`0x2020 * 2^48 + b * 2^48 + r * 2^40 + r * 2^32 + ID * 2^4 + b`; the button
code, the ID and the random value are recovered from the payload by shifting
and masking, and two triples that give the same payload are equal. -/
theorem payload_fields_disjoint (k : Keyfob) (rnd : Nat) (s : State)
    (hb : k.KEYFOB_BUTTON < 16) (hid : k.KEYFOB_ID < 2 ^ 28) (hr : rnd < 255) :
    (send_data k rnd s).payload =
      payload_frame ||| payload_button k ||| payload_random rnd ||| payload_id k ∧
    (payload_frame &&& payload_button k = 0 ∧
      payload_frame &&& payload_random rnd = 0 ∧
      payload_frame &&& payload_id k = 0 ∧
      payload_button k &&& payload_random rnd = 0 ∧
      payload_button k &&& payload_id k = 0 ∧
      payload_random rnd &&& payload_id k = 0) ∧
    (send_data k rnd s).payload =
      0x2020 * 2 ^ 48 + k.KEYFOB_BUTTON * 2 ^ 48 + rnd * 2 ^ 40 + rnd * 2 ^ 32 +
        k.KEYFOB_ID * 2 ^ 4 + k.KEYFOB_BUTTON ∧
    (send_data k rnd s).payload % 2 ^ 4 = k.KEYFOB_BUTTON ∧
    ((send_data k rnd s).payload >>> 4) % 2 ^ 28 = k.KEYFOB_ID ∧
    ((send_data k rnd s).payload >>> 32) % 2 ^ 8 = rnd ∧
    (∀ (k2 : Keyfob) (rnd2 : Nat) (s2 : State),
      k2.KEYFOB_BUTTON < 16 → k2.KEYFOB_ID < 2 ^ 28 → rnd2 < 255 →
      (send_data k2 rnd2 s2).payload = (send_data k rnd s).payload →
      k2.KEYFOB_BUTTON = k.KEYFOB_BUTTON ∧ k2.KEYFOB_ID = k.KEYFOB_ID ∧ rnd2 = rnd) := by
  have hp : ∀ (k0 : Keyfob) (r0 : Nat) (s0 : State),
      (send_data k0 r0 s0).payload = build_payload k0 r0 := by
    intro k0 r0 s0
    rw [send_data_eq]
  obtain ⟨r1, r2, r3⟩ := payload_recover k rnd hb hid (by omega)
  rw [hp]
  refine ⟨build_payload_fields k rnd, payload_fields_disjoint_aux k rnd hb hid (by omega),
    build_payload_sum k rnd hb hid (by omega), r1, r2, r3, ?_⟩
  intro k2 rnd2 s2 hb2 hid2 hr2 heq
  rw [hp] at heq
  obtain ⟨q1, q2, q3⟩ := payload_recover k2 rnd2 hb2 hid2 (by omega)
  rw [heq] at q1 q2 q3
  exact ⟨q1.symm.trans r1, q2.symm.trans r2, q3.symm.trans r3⟩

/-- Witness for C19 with the shipped configuration and random value `0x5A`. -/
theorem payload_fields_disjoint_witness :
    (send_data keyfob_default 0x5A power_up).payload =
      0x2020 * 2 ^ 48 + 4 * 2 ^ 48 + 0x5A * 2 ^ 40 + 0x5A * 2 ^ 32 + 0 * 2 ^ 4 + 4 :=
  (payload_fields_disjoint keyfob_default 0x5A power_up (by decide) (by decide)
    (by decide)).2.2.1

/-- C16: from any state with `tx_allowed = true`, for every run of `n >= 1`
consecutive loop ticks in each of which the button is pressed, the charger is
not connected, less than 1000 ms pass between the idle-timer reset and the
sleep test, and the ADC reading is not zero: the run returns with
`tx_allowed = false`, and so does every non-empty initial part of it; the
actions of the whole run are battery-indicator actions, then exactly one burst
of four packets with the payload of the first tick and the LOW write to the
transmitter, then battery-indicator actions only.  In particular the trace has
no power-down, no interrupt attachment and no further write to the transmitter:
`sleep_begin` is never invoked and no second burst is sent. -/
theorem held_button_single_burst (k : Keyfob) (e : TickEnv) (es : List TickEnv) (s : State)
    (htx : s.tx_allowed = true)
    (hall : ∀ t ∈ e :: es, t.btn_pin = LOW ∧ t.chg_pin = HIGH ∧
      elapsed t.now_sleep_check t.now_wake_reset < TIME_AFTER_WAKE_UP ∧
      adc_raw t.adch t.adcl ≠ 0) :
    (∃ s1 evs1 evs2, run k (e :: es) s = some s1 ∧ s1.tx_allowed = false ∧
      s1.trace = s.trace ++ evs1 ++
        (List.replicate 4 (spec_packet (build_payload k e.rnd))).flatten ++
        [Event.pinWrite PIN_TRANSMITTER LOW] ++ evs2 ∧
      (∀ ev ∈ evs1 ++ evs2, is_display ev = true) ∧
      (∀ ev ∈ evs1 ++ evs2, ev ≠ Event.powerDown ∧ (∀ p, ev ≠ Event.attachInterrupt p) ∧
        (∀ l, ev ≠ Event.pinWrite PIN_TRANSMITTER l) ∧
        (∀ us, ev ≠ Event.delayMicroseconds us))) ∧
    (∀ pre, pre <+: es → ∃ sp, run k (e :: pre) s = some sp ∧ sp.tx_allowed = false) := by
  refine ⟨?_, ?_⟩
  · obtain ⟨s1, evs1, evs2, h1, h2, h3, h4⟩ := held_button_run k e es s htx hall
    exact ⟨s1, evs1, evs2, h1, h2, h3, h4, fun ev hev => is_display_not_sleep ev (h4 ev hev)⟩
  · intro pre hpre
    have hall2 : ∀ t ∈ e :: pre, t.btn_pin = LOW ∧ t.chg_pin = HIGH ∧
        elapsed t.now_sleep_check t.now_wake_reset < TIME_AFTER_WAKE_UP ∧
        adc_raw t.adch t.adcl ≠ 0 := by
      intro t ht
      rcases List.mem_cons.mp ht with h | h
      · exact hall t (by rw [h]; exact List.mem_cons_self _ _)
      · exact hall t (List.mem_cons_of_mem _ (hpre.subset h))
    obtain ⟨sp, _, _, h1, h2, _, _⟩ := held_button_run k e pre s htx hall2
    exact ⟨sp, h1, h2⟩

/-- Witness for C16: three ticks with the button held, at 0, 300 and 600 ms, from
the power-up state with a permit. -/
theorem held_button_single_burst_witness :
    ∃ sp, run keyfob_default [tick_pressed_at 0, tick_pressed_at 300, tick_pressed_at 600]
      { power_up with tx_allowed := true } = some sp ∧ sp.tx_allowed = false :=
  (held_button_single_burst keyfob_default (tick_pressed_at 0)
    [tick_pressed_at 300, tick_pressed_at 600] { power_up with tx_allowed := true } rfl
    (by decide)).2 _ (List.prefix_refl _)

/-- C20: a loop tick in which the charger is not connected and that starts with
`tx_allowed = false` never sets the permit itself: the flag is false at the
sleep test, false at the end of a tick that does not sleep, and the tick emits
battery-indicator actions and, if it sleeps, the actions of `sleep_begin`,
never a HIGH write to the transmitter.  Hence from the power-up state, for
every run of ticks with the charger never connected in which no power-down
(and so no `wake_up`) has occurred, the permit is still false and the trace
holds battery-indicator actions only: no burst is emitted, however the button
is pressed. -/
theorem no_charger_no_permit (k : Keyfob) (es : List TickEnv)
    (hall : ∀ t ∈ es, t.chg_pin = HIGH ∧ adc_raw t.adch t.adcl ≠ 0) :
    (∀ (e : TickEnv) (s : State), e.chg_pin = HIGH → adc_raw e.adch e.adcl ≠ 0 →
      s.tx_allowed = false →
      ∃ s1 evs,
        show_charge e.now_show_check e.adch e.adcl e.now_show_reset (loop_head e s) = some s1 ∧
        loop k e s = some (loop_tail k e s1) ∧
        (loop_awake k e s1).tx_allowed = false ∧
        (loop_sleeps k e s1 = false → (loop_tail k e s1).tx_allowed = false) ∧
        (∀ ev ∈ evs, is_display ev = true) ∧
        (loop_tail k e s1).trace = s.trace ++ evs ++
          (if loop_sleeps k e s1 then sleep_events else []) ∧
        Event.pinWrite PIN_TRANSMITTER HIGH ∉ (loop_tail k e s1).trace.drop s.trace.length) ∧
    (power_up.tx_allowed = false ∧
      ∃ s1, run k es power_up = some s1 ∧
        (Event.powerDown ∉ s1.trace →
          s1.tx_allowed = false ∧ (∀ ev ∈ s1.trace, is_display ev = true) ∧
          (∀ l, Event.pinWrite PIN_TRANSMITTER l ∉ s1.trace))) := by
  refine ⟨?_, rfl, ?_⟩
  · intro e s hchg hadc htx
    obtain ⟨s1, evs, h1, h2, h3, h4, h5, h6⟩ := quiet_tick k e s hchg hadc htx
    refine ⟨s1, evs, h1, h2, h3, h4, h5, h6, ?_⟩
    rw [h6, List.append_assoc, List.drop_left]
    intro hmem
    rcases List.mem_append.mp hmem with h | h
    · exact (is_display_not_sleep _ (h5 _ h)).2.2.1 HIGH rfl
    · split at h
      · revert h; decide
      · simp at h
  · obtain ⟨s1, hr, hi⟩ := quiet_run k es power_up hall (fun _ => ⟨rfl, by simp [power_up]⟩)
    refine ⟨s1, hr, fun hn => ?_⟩
    obtain ⟨i1, i2⟩ := hi hn
    exact ⟨i1, i2, fun l hl => (is_display_not_sleep _ (i2 _ hl)).2.2.1 l rfl⟩

/-- Witness for C20: two ticks with the button held and no charger, at 0 and
300 ms from power-up, end with no permit and no power-down in the trace. -/
theorem no_charger_no_permit_witness :
    (∃ s1, run keyfob_default [tick_pressed_at 0, tick_pressed_at 300] power_up = some s1 ∧
      (Event.powerDown ∉ s1.trace →
        s1.tx_allowed = false ∧ (∀ ev ∈ s1.trace, is_display ev = true) ∧
        (∀ l, Event.pinWrite PIN_TRANSMITTER l ∉ s1.trace))) ∧
    (run keyfob_default [tick_pressed_at 0, tick_pressed_at 300] power_up).map
      (fun s => (decide (Event.powerDown ∈ s.trace), s.tx_allowed)) = some (false, false) :=
  ⟨(no_charger_no_permit keyfob_default [tick_pressed_at 0, tick_pressed_at 300]
    (by decide)).2.2, by decide⟩

/-- C18 (amended): the power-up value of `show_charge_period` is 0.  For every run
of ticks from power-up with non-zero ADC readings and no low-battery reading
while the charger is off, every initial part of the run returns, and the
period in force for the refresh of the next tick is exactly 0 (the
zero-initialised value, every tick is then a due refresh) when no tick so far
has seen the charger connected, and exactly 500 once a tick has seen the
charger connected.  From a state where the period is 500 it stays 500, and the
not-charging branch at an adequate voltage never changes the period. -/
theorem refresh_period_from_power_up (k : Keyfob) (es : List TickEnv)
    (hall : ∀ t ∈ es, adc_raw t.adch t.adcl ≠ 0 ∧
      (t.chg_pin = HIGH → 1101 * 1024 / adc_raw t.adch t.adcl ≥ 3450)) :
    power_up.show_charge_period = 0 ∧
    (∀ pre, pre <+: es →
      ∃ sp, run k pre power_up = some sp ∧
        ((∀ t ∈ pre, t.chg_pin = HIGH) → sp.show_charge_period = 0) ∧
        ((∃ t ∈ pre, t.chg_pin = LOW) → sp.show_charge_period = 500)) ∧
    (∃ s1, run k es power_up = some s1 ∧
      ((∀ t ∈ es, t.chg_pin = HIGH) → s1.show_charge_period = 0) ∧
      ((∃ t ∈ es, t.chg_pin = LOW) → s1.show_charge_period = 500)) ∧
    (∀ s : State, s.show_charge_period = 500 →
      ∃ s1, run k es s = some s1 ∧ s1.show_charge_period = 500) ∧
    (∀ s0 : State, s0.vcc ≥ 3450 →
      (show_charge_battery s0).show_charge_period = s0.show_charge_period) := by
  have hpre : ∀ pre, pre <+: es →
      ∃ sp, run k pre power_up = some sp ∧
        ((∀ t ∈ pre, t.chg_pin = HIGH) → sp.show_charge_period = 0) ∧
        ((∃ t ∈ pre, t.chg_pin = LOW) → sp.show_charge_period = 500) := by
    intro pre hp
    obtain ⟨sp, hr, i1, i2, _⟩ := period_run_exact k pre power_up
      (fun t ht => hall t (hp.subset ht)) (Or.inl rfl)
    exact ⟨sp, hr, fun h => by rw [i2 h]; rfl, i1⟩
  refine ⟨rfl, hpre, hpre es (List.prefix_refl es), ?_, ?_⟩
  · intro s hs
    obtain ⟨s1, hr, _, _, i3⟩ := period_run_exact k es s hall (Or.inr hs)
    exact ⟨s1, hr, i3 hs⟩
  · intro s0 h0
    exact (show_charge_battery_steady s0 h0).2.2.2.2.1

/-- Witness for C18 (amended): from power-up an idle tick at 0 ms, a tick on the
charger at 1 ms and an idle tick at 2 ms.  After the first tick the period is
still 0; after the whole run, and so for the refresh of any later tick, it
is 500. -/
theorem refresh_period_from_power_up_witness :
    (∃ sp, run keyfob_default [tick_idle_at 0] power_up = some sp ∧
      sp.show_charge_period = 0) ∧
    (∃ s1, run keyfob_default [tick_idle_at 0, tick_charger_at 1, tick_idle_at 2]
      power_up = some s1 ∧ s1.show_charge_period = 500) := by
  obtain ⟨_, hpre, ⟨s1, h1, _, h3⟩, _, _⟩ := refresh_period_from_power_up keyfob_default
    [tick_idle_at 0, tick_charger_at 1, tick_idle_at 2] (by decide)
  obtain ⟨sp, p1, p2, _⟩ := hpre [tick_idle_at 0]
    (List.prefix_append [tick_idle_at 0] [tick_charger_at 1, tick_idle_at 2])
  exact ⟨⟨sp, p1, p2 (by decide)⟩, ⟨s1, h1, h3 (by decide)⟩⟩

/-- C18 (counterexample): at the first tick from power-up, with no charger and a
measured 3523 mV, the period in force is 0, not 500: the refresh is due at
clock 0 and is performed, it leaves the period 0, and the tick one
millisecond later refreshes again. -/
theorem refresh_period_zero_counterexample :
    power_up.show_charge_period = 0 ∧
    (loop keyfob_default (tick_idle_at 0) power_up).map
        (fun s => (s.show_charge_period, s.vcc, s.trace)) =
      some (0, 3523, [Event.delay 10, Event.analogReferenceDefault, Event.analogRead A5,
        Event.pinWrite PIN_LED_RED HIGH, Event.pinWrite PIN_LED_YELLOW LOW,
        Event.pinWrite PIN_LED_GREEN LOW]) ∧
    (run keyfob_default [tick_idle_at 0, tick_idle_at 1] power_up).map
        (fun s => (s.show_charge_period, s.show_charge_timer, s.trace.length)) =
      some (0, 1, 12) := by
  decide

/-- C15: for every run of loop ticks whose clock readings, taken in program
order, never decrease and stay below `2 ^ 32` (no wrap-around), started in a
state whose `transmit_timer` is not ahead of the clock (the power-up state is
one): of any two permit grants made by the charger step, the later one is
tested at a clock reading at least 1000 ms after the reading the earlier one
stored in `transmit_timer`, hence at least 1000 ms after the earlier test;
and a grant is tested at least 1000 ms after every earlier `wake_up`.  A
grant mark stands for the charger step setting `tx_allowed` and
`transmit_timer`, a wake mark for a tick whose sleep test fired. -/
theorem charger_grants_spaced (k : Keyfob) (es : List TickEnv) (s : State)
    (hmono : (clock_readings es).Pairwise (· ≤ ·))
    (hwrap : ∀ t ∈ clock_readings es, t < 2 ^ 32)
    (hlo : ∀ t ∈ clock_readings es, s.transmit_timer ≤ t) :
    (marks k es s).Pairwise (fun a b => spaced a b = true) ∧
    (∀ c r, Mark.grant c r ∈ marks k es s → s.transmit_timer + 1000 ≤ c) ∧
    (∀ (e : TickEnv) (s0 : State),
      (loop_head e s0).tx_allowed = (loop_grants e s0 || s0.tx_allowed) ∧
      (loop_head e s0).transmit_timer =
        (if loop_grants e s0 then e.now_tx_reset else s0.transmit_timer)) ∧
    (∀ (e : TickEnv) (s0 : State),
      loop_tail k e s0 =
        if loop_sleeps k e s0 then sleep_begin e.wake e.rewakes (loop_awake k e s0)
        else loop_awake k e s0) := by
  obtain ⟨h1, h2⟩ := marks_spaced k es s hmono hlo
    (fun t ht => Nat.lt_trans (hwrap t ht) (by decide))
  exact ⟨h1, h2, fun e s0 => ⟨(loop_head_grants e s0).2, (loop_head_grants e s0).1⟩,
    fun e s0 => loop_tail_eq k e s0⟩

/-- Witness for C15: from power-up, an idle tick at 1000 ms that sleeps and is
woken at 2000 ms, then ticks on the charger at 2500, 3000, 3500 and 4000 ms:
the grants are those of 3000 and 4000 ms. -/
theorem charger_grants_spaced_witness :
    marks keyfob_default [tick_idle_1000, tick_charger_at 2500, tick_charger_at 3000,
        tick_charger_at 3500, tick_charger_at 4000] power_up =
      [Mark.wake 2000 2000, Mark.grant 3000 3000, Mark.grant 4000 4000] ∧
    (marks keyfob_default [tick_idle_1000, tick_charger_at 2500, tick_charger_at 3000,
        tick_charger_at 3500, tick_charger_at 4000] power_up).Pairwise
      (fun a b => spaced a b = true) :=
  ⟨by decide, (charger_grants_spaced keyfob_default [tick_idle_1000, tick_charger_at 2500,
    tick_charger_at 3000, tick_charger_at 3500, tick_charger_at 4000] power_up
    (by decide) (by decide) (fun _ _ => Nat.zero_le _)).1⟩
end ANMAK
